import Mathlib

/-!
Verification development for the Combo Surge rhythm-game core
(`src/lib/game/engine.ts`, `src/lib/types.ts` (shipped variant), and the
level generator `src/lib/game/levels.ts` shipped variant).

The embedding is shallow: JavaScript numbers are modelled as exact
rationals (`ℚ`), JavaScript integers as `ℕ`/`ℤ`, and the stateful engine
methods as explicit state-passing functions.  The `x & 0x7fffffff` mask of
the seeded generator is modelled as `% 2 ^ 31`, which agrees with the
JavaScript semantics on the nonnegative values that occur.  Unbounded
`while`/`do-while` loops are modelled with an explicit fuel argument;
every loop in question terminates in a couple of iterations on the real
data, so fuel only bounds the modelled iteration count.

The seeded generator is modelled twice.  `SeededRandom.next` is the
exact-integer idealization of the recurrence, adequate for the structural
claims that do not depend on particular drawn values.  JavaScript however
evaluates `seed * 1103515245 + 12345` in float64, rounding the product
and the sum to 53 significant bits — for any seed above 8 162 278 the
masked result differs from the exact recurrence.  The claims that are
about the drawn streams themselves are therefore settled against the
bit-exact float64 semantics `jsNextSeed`/`jsNextValue` below (float64
rounding of integers is itself exact integer arithmetic).  In that
bit-exact model the returned value and the probability thresholds are
taken as exact rationals; they differ from the corresponding float64
quantities by less than `2 ^ (-52)`, while every comparison exercised by
a concrete theorem below has a margin larger than `10 ^ (-4)`, so every
branch taken agrees with the program's.
-/

set_option maxRecDepth 100000

-- Batteries marks the rational-number operations irreducible, which blocks
-- kernel evaluation in `decide`; restore the default reducibility locally.
attribute [local semireducible] Rat.add Rat.mul Rat.sub Rat.inv

namespace ComboSurge

/-- JavaScript `Math.abs` on exact rationals. -/
def jsAbs (q : ℚ) : ℚ := if q < 0 then -q else q

/-- JavaScript `Math.floor` on exact rationals (rounds toward minus infinity). -/
def jsFloor (q : ℚ) : ℤ := Int.floor q

/-- The seeded linear congruential generator of `engine.ts` lines 26-37
(an identical copy lives at the top of the level generator).  The state is
the 31-bit masked seed. -/
structure SeededRandom where
  seed : ℕ
deriving DecidableEq

/-- The exact-integer idealization of `next()`: update the seed by
`seed * 1103515245 + 12345` masked to 31 bits and return the new seed
divided by `0x7fffffff = 2 ^ 31 - 1`, together with the new generator
state.  This ignores the float64 rounding of the product (see the module
docstring and `jsNextSeed` for the bit-exact semantics); it is used by
the structural claims whose truth does not depend on the drawn values. -/
def SeededRandom.next (r : SeededRandom) : ℚ × SeededRandom :=
  let s : ℕ := (r.seed * 1103515245 + 12345) % 2 ^ 31
  ((s : ℚ) / (2 ^ 31 - 1), ⟨s⟩)

/-- Number of binary digits of `n`, with explicit fuel (so that the
kernel can evaluate it); `bitLen 64 n` is the bit length of any
`n < 2 ^ 64`. -/
def bitLen : ℕ → ℕ → ℕ
  | 0, _ => 0
  | fuel + 1, n => if n = 0 then 0 else bitLen fuel (n / 2) + 1

/-- Round a natural number to the nearest IEEE-754 double (53-bit
significand, round to nearest, ties to even), for values below `2 ^ 64`.
JavaScript number arithmetic on integer operands computes exactly this
rounding of the exact result. -/
def fl64round (n : ℕ) : ℕ :=
  if n < 2 ^ 53 then n
  else
    let e := bitLen 64 n - 53
    let q := n / 2 ^ e
    let r := n % 2 ^ e
    if 2 * r < 2 ^ e then q * 2 ^ e
    else if 2 ^ e < 2 * r then (q + 1) * 2 ^ e
    else (if q % 2 = 0 then q else q + 1) * 2 ^ e

/-- The bit-exact float64 semantics of the source line
`this.seed = (this.seed * 1103515245 + 12345) & 0x7fffffff`: the product
and the sum are each rounded to double precision, then `ToInt32` plus the
mask keep the low 31 bits of the integer value.  This agrees with the
exact-integer recurrence precisely when
`seed * 1103515245 + 12345 < 2 ^ 53`, i.e. for seeds up to 8 162 278. -/
def jsNextSeed (s : ℕ) : ℕ :=
  fl64round (fl64round (s * 1103515245) + 12345) % 2 ^ 31

/-- The value returned by `next()` under the bit-exact seed update: the
new masked seed divided by `2 ^ 31 - 1`.  The quotient is taken as an
exact rational; the float64 quotient differs from it by less than
`2 ^ (-53)`, which cannot move it across any of the bounds or thresholds
used below. -/
def jsNextValue (s : ℕ) : ℚ := (jsNextSeed s : ℚ) / (2 ^ 31 - 1)

/-- One draw of the bit-exact generator: the returned value and the new
seed state. -/
def jsDraw (s : ℕ) : ℚ × ℕ := (jsNextValue s, jsNextSeed s)

/-- `Math.floor(rng.next() * 4)`: the uniform lane pick used by both the
pattern generator and the live spawner. -/
def laneOf (v : ℚ) : ℕ := (jsFloor (v * 4)).toNat

/-- The `do { secondLane = floor(next()*4) } while (secondLane === lanes[0])`
loop picking a second, distinct lane for a double note.  Modelled with
fuel; `none` means the fuel ran out (the real loop would keep drawing). -/
def pickSecondLane (first : ℕ) : ℕ → SeededRandom → Option ℕ × SeededRandom
  | 0, r => (none, r)
  | fuel + 1, r =>
    let vr := r.next
    let lane := laneOf vr.1
    if lane = first then pickSecondLane first fuel vr.2 else (some lane, vr.2)

/-- Note kinds from `types.ts` (only `normal` is ever produced). -/
inductive NoteType where
  | normal
  | double
  | hold
deriving DecidableEq

/-- A scheduled pattern entry from `types.ts`: a normalized time in [0,1)
relative to the level duration and the lanes receiving notes. -/
structure NotePattern where
  time : ℚ
  lanes : List ℕ
  type : NoteType
deriving DecidableEq

/-- A generated level configuration from `types.ts`. -/
structure LevelConfig where
  bpm : ℕ
  duration : ℕ
  difficulty : ℚ
  patterns : List NotePattern
deriving DecidableEq

/-- Note density on main beats, `0.5 + min(difficulty * 0.08, 0.4)`.
The same formula appears in the pattern generator and in the live
spawning loop of `updateGameplay`. -/
def noteChanceOf (difficulty : ℚ) : ℚ := 1 / 2 + min (difficulty * (8 / 100)) (4 / 10)

/-- Double-note chance, `min(0.05 + difficulty * 0.05, 0.4)` (both sites). -/
def doubleChanceOf (difficulty : ℚ) : ℚ := min (5 / 100 + difficulty * (5 / 100)) (4 / 10)

/-- Off-beat-note chance, `min(difficulty * 0.08, 0.5)` (both sites). -/
def offBeatChanceOf (difficulty : ℚ) : ℚ := min (difficulty * (8 / 100)) (1 / 2)

/-- Stable insertion used to model the JavaScript stable
`patterns.sort((a, b) => a.time - b.time)`. -/
def insertPattern (p : NotePattern) : List NotePattern → List NotePattern
  | [] => [p]
  | q :: qs => if p.time < q.time then p :: q :: qs else q :: insertPattern p qs

/-- Stable sort of patterns by ascending time (equal times keep insertion
order, as guaranteed for `Array.prototype.sort`). -/
def sortPatterns (ps : List NotePattern) : List NotePattern :=
  ps.foldl (fun acc p => insertPattern p acc) []

/-- One beat of `generatePatterns` (levels source, lines 50-101): main-beat
draw, optional double note, off-beat draw with the 0.95 cutoff, and the
triplet branch active above difficulty 2.  Beats before 4 are skipped
without consuming randomness. -/
def generateBeat (beatDuration : ℚ) (duration : ℕ) (difficulty : ℚ)
    (acc : List NotePattern × SeededRandom) (beat : ℕ) : List NotePattern × SeededRandom :=
  if beat < 4 then acc else
  let time := ((beat : ℚ) * beatDuration) / (duration : ℚ)
  let (ps, r) := acc
  let v1r := r.next
  let (ps1, r1) :=
    if v1r.1 < noteChanceOf difficulty then
      let v2r := v1r.2.next
      let lane0 := laneOf v2r.1
      let v3r := v2r.2.next
      if v3r.1 < doubleChanceOf difficulty then
        match pickSecondLane lane0 64 v3r.2 with
        | (some l2, r') => (ps ++ [⟨time, [lane0, l2], NoteType.normal⟩], r')
        | (none, r') => (ps ++ [⟨time, [lane0], NoteType.normal⟩], r')
      else (ps ++ [⟨time, [lane0], NoteType.normal⟩], v3r.2)
    else (ps, v1r.2)
  let v4r := r1.next
  let (ps2, r2) :=
    if v4r.1 < offBeatChanceOf difficulty then
      let offBeatTime := time + (1 / 2 * beatDuration) / (duration : ℚ)
      if offBeatTime < 95 / 100 then
        let v5r := v4r.2.next
        (ps1 ++ [⟨offBeatTime, [laneOf v5r.1], NoteType.normal⟩], v5r.2)
      else (ps1, v4r.2)
    else (ps1, v4r.2)
  if 2 < difficulty then
    let v6r := r2.next
    if v6r.1 < 1 / 10 then
      let t1 := time + (1 * beatDuration / 3) / (duration : ℚ)
      let (ps3, r3) :=
        if t1 < 95 / 100 then
          let w := v6r.2.next
          (ps2 ++ [⟨t1, [laneOf w.1], NoteType.normal⟩], w.2)
        else (ps2, v6r.2)
      let t2 := time + (2 * beatDuration / 3) / (duration : ℚ)
      if t2 < 95 / 100 then
        let w := r3.next
        (ps3 ++ [⟨t2, [laneOf w.1], NoteType.normal⟩], w.2)
      else (ps3, r3)
    else (ps2, v6r.2)
  else (ps2, r2)

/-- `generatePatterns` from the shipped level generator: iterate the beat
indices `0 .. totalBeats - 1` threading the seeded generator, then sort by
time. -/
def generatePatterns (bpm duration : ℕ) (difficulty : ℚ) (r0 : SeededRandom) : List NotePattern :=
  let beatDuration : ℚ := 60 / (bpm : ℚ)
  let totalBeats : ℕ := (jsFloor ((duration : ℚ) / beatDuration)).toNat
  sortPatterns ((List.range totalBeats).foldl (generateBeat beatDuration duration difficulty) ([], r0)).1

/-- `generateLevel` from the shipped level generator (lines 18-36):
BPM `80 + min(n*5, 120)`, duration `min(20 + n*2, 60)`, difficulty
`1 + (n-1)*0.15`, patterns from a generator seeded with `n * 12345`. -/
def generateLevel (levelNum : ℕ) : LevelConfig :=
  let rng : SeededRandom := ⟨levelNum * 12345⟩
  let baseBpm := 80
  let bpmIncrease := min (levelNum * 5) 120
  let bpm := baseBpm + bpmIncrease
  let duration := min (20 + levelNum * 2) 60
  let difficulty : ℚ := 1 + ((levelNum : ℚ) - 1) * (15 / 100)
  { bpm := bpm, duration := duration, difficulty := difficulty
    patterns := generatePatterns bpm duration difficulty rng }

/-- `pickSecondLane` over the bit-exact float64 generator (the state is
the bare masked seed). -/
def pickSecondLaneFl (first : ℕ) : ℕ → ℕ → Option ℕ × ℕ
  | 0, s => (none, s)
  | fuel + 1, s =>
    let vs := jsDraw s
    let lane := laneOf vs.1
    if lane = first then pickSecondLaneFl first fuel vs.2 else (some lane, vs.2)

/-- `generateBeat` over the bit-exact float64 generator: identical to
`generateBeat` except that each draw uses the float64-rounded seed
update. -/
def generateBeatFl (beatDuration : ℚ) (duration : ℕ) (difficulty : ℚ)
    (acc : List NotePattern × ℕ) (beat : ℕ) : List NotePattern × ℕ :=
  if beat < 4 then acc else
  let time := ((beat : ℚ) * beatDuration) / (duration : ℚ)
  let (ps, r) := acc
  let v1r := jsDraw r
  let (ps1, r1) :=
    if v1r.1 < noteChanceOf difficulty then
      let v2r := jsDraw v1r.2
      let lane0 := laneOf v2r.1
      let v3r := jsDraw v2r.2
      if v3r.1 < doubleChanceOf difficulty then
        match pickSecondLaneFl lane0 64 v3r.2 with
        | (some l2, r') => (ps ++ [⟨time, [lane0, l2], NoteType.normal⟩], r')
        | (none, r') => (ps ++ [⟨time, [lane0], NoteType.normal⟩], r')
      else (ps ++ [⟨time, [lane0], NoteType.normal⟩], v3r.2)
    else (ps, v1r.2)
  let v4r := jsDraw r1
  let (ps2, r2) :=
    if v4r.1 < offBeatChanceOf difficulty then
      let offBeatTime := time + (1 / 2 * beatDuration) / (duration : ℚ)
      if offBeatTime < 95 / 100 then
        let v5r := jsDraw v4r.2
        (ps1 ++ [⟨offBeatTime, [laneOf v5r.1], NoteType.normal⟩], v5r.2)
      else (ps1, v4r.2)
    else (ps1, v4r.2)
  if 2 < difficulty then
    let v6r := jsDraw r2
    if v6r.1 < 1 / 10 then
      let t1 := time + (1 * beatDuration / 3) / (duration : ℚ)
      let (ps3, r3) :=
        if t1 < 95 / 100 then
          let w := jsDraw v6r.2
          (ps2 ++ [⟨t1, [laneOf w.1], NoteType.normal⟩], w.2)
        else (ps2, v6r.2)
      let t2 := time + (2 * beatDuration / 3) / (duration : ℚ)
      if t2 < 95 / 100 then
        let w := jsDraw r3
        (ps3 ++ [⟨t2, [laneOf w.1], NoteType.normal⟩], w.2)
      else (ps3, r3)
    else (ps2, v6r.2)
  else (ps2, r2)

/-- `generatePatterns` over the bit-exact float64 generator. -/
def generatePatternsFl (bpm duration : ℕ) (difficulty : ℚ) (s0 : ℕ) : List NotePattern :=
  let beatDuration : ℚ := 60 / (bpm : ℚ)
  let totalBeats : ℕ := (jsFloor ((duration : ℚ) / beatDuration)).toNat
  sortPatterns
    ((List.range totalBeats).foldl (generateBeatFl beatDuration duration difficulty) ([], s0)).1

/-- `generateLevel` over the bit-exact float64 generator: BPM, duration
and difficulty as in `generateLevel`, patterns drawn with the
float64-rounded seed update from the seed `levelNum * 12345`. -/
def generateLevelFl (levelNum : ℕ) : LevelConfig :=
  let bpm := 80 + min (levelNum * 5) 120
  let duration := min (20 + levelNum * 2) 60
  let difficulty : ℚ := 1 + ((levelNum : ℚ) - 1) * (15 / 100)
  { bpm := bpm, duration := duration, difficulty := difficulty
    patterns := generatePatternsFl bpm duration difficulty (levelNum * 12345) }

/-- One beat of the live spawning loop in `updateGameplay` (engine lines
210-264) over the bit-exact float64 generator, recorded as the
`(hitTime, lane)` pairs of the notes it pushes.  The loop skips only the
beat at time 0 (`if (this.nextBeatTime > 0)`), draws a main note,
optionally a double, and an off-beat note with no cutoff and no triplet
branch. -/
def liveBeatFl (beatInterval difficulty : ℚ)
    (acc : List (ℚ × ℕ) × ℕ) (k : ℕ) : List (ℚ × ℕ) × ℕ :=
  if k = 0 then acc else
  let nextBeatTime := (k : ℚ) * beatInterval
  let (ps, r) := acc
  let v1r := jsDraw r
  let (ps1, r1) :=
    if v1r.1 < noteChanceOf difficulty then
      let v2r := jsDraw v1r.2
      let lane0 := laneOf v2r.1
      let v3r := jsDraw v2r.2
      if v3r.1 < doubleChanceOf difficulty then
        match pickSecondLaneFl lane0 64 v3r.2 with
        | (some l2, r') => (ps ++ [(nextBeatTime, lane0), (nextBeatTime, l2)], r')
        | (none, r') => (ps ++ [(nextBeatTime, lane0)], r')
      else (ps ++ [(nextBeatTime, lane0)], v3r.2)
    else (ps, v1r.2)
  let v4r := jsDraw r1
  if v4r.1 < offBeatChanceOf difficulty then
    let v5r := jsDraw v4r.2
    (ps1 ++ [(nextBeatTime + beatInterval / 2, laneOf v5r.1)], v5r.2)
  else (ps1, v4r.2)

/-- The aggregate `(hitTime, lane)` pairs spawned by the live loop of
`updateGameplay` over the beats `0 .. maxBeat` of a playthrough, over the
bit-exact float64 generator seeded with `levelNum * 12345` as in
`startLevel`.  The engine's
`while (nextBeatTime < gameTime + travelTime + beatInterval)` loop
processes exactly the beat times `0, bi, 2*bi, ...` in order, however the
per-frame work is sliced, so the pairs spawned over a whole playthrough
reaching beat `maxBeat` are this list. -/
def liveSpawnPairsFl (levelNum : ℕ) (maxBeat : ℕ) : List (ℚ × ℕ) :=
  let cfg := generateLevelFl levelNum
  let beatInterval : ℚ := 60 / (cfg.bpm : ℚ)
  ((List.range (maxBeat + 1)).foldl (liveBeatFl beatInterval cfg.difficulty)
    ([], levelNum * 12345)).1

/-- The pre-rendered pattern list mapped to absolute `(hit time, lane)`
pairs: a pattern at normalized time `t` with lanes `ls` denotes one note
per lane at absolute time `t * duration`. -/
def patternPairs (cfg : LevelConfig) : List (ℚ × ℕ) :=
  (cfg.patterns.map (fun p => p.lanes.map (fun l => (p.time * (cfg.duration : ℚ), l)))).flatten

/-- `GameConfig` from `types.ts`. -/
structure GameConfig where
  laneCount : ℕ
  hitLineY : ℚ
  baseHitWindow : ℚ
  baseNoteSpeed : ℚ
  perfectWindow : ℚ
  greatWindow : ℚ
  goodWindow : ℚ
deriving DecidableEq

/-- `DEFAULT_CONFIG` from `types.ts`: 4 lanes, hit line at 85% of the
canvas height, base window 150, base speed 400, rating windows 40/80/120. -/
def DEFAULT_CONFIG : GameConfig :=
  { laneCount := 4, hitLineY := 85 / 100, baseHitWindow := 150, baseNoteSpeed := 400
    perfectWindow := 40, greatWindow := 80, goodWindow := 120 }

/-- An entry of the upgrade catalog from `types.ts` (the `currentLevel`
field lives in the game state and is omitted here). -/
structure UpgradeDef where
  id : String
  baseCost : ℕ
  maxLevel : ℕ
  effect : ℚ
deriving DecidableEq

/-- `UPGRADE_DEFINITIONS` from `types.ts` (shipped variant with
`baseCost` and max level 10). -/
def UPGRADE_DEFINITIONS : List UpgradeDef :=
  [ { id := "timing", baseCost := 100, maxLevel := 10, effect := 1 / 10 }
  , { id := "multiplier", baseCost := 150, maxLevel := 10, effect := 15 / 100 }
  , { id := "combo_shield", baseCost := 200, maxLevel := 10, effect := 8 / 100 }
  , { id := "perfect_bonus", baseCost := 250, maxLevel := 10, effect := 1 / 5 }
  , { id := "slow_notes", baseCost := 120, maxLevel := 10, effect := 1 / 20 } ]

/-- The per-level effect magnitude of the catalog upgrade with the given
id, as read by the engine's `this.state.upgrades.find(u => u.id === id)`
lookups (0 if the id is unknown; every engine lookup uses a catalog id). -/
def upgradeEffect (id : String) : ℚ :=
  (((UPGRADE_DEFINITIONS.find? (fun u => u.id == id)).map UpgradeDef.effect)).getD 0

/-- `getUpgradeCost` (engine lines 428-430):
`Math.floor(upgrade.baseCost * Math.pow(1.5, upgrade.currentLevel))`. -/
def getUpgradeCost (u : UpgradeDef) (currentLevel : ℕ) : ℤ :=
  jsFloor ((u.baseCost : ℚ) * (3 / 2) ^ currentLevel)

/-- The persisted `currentLevel` of each of the five upgrades, the only
mutable upgrade state the engine reads during play. -/
structure UpgradeLevels where
  timing : ℕ
  multiplier : ℕ
  comboShield : ℕ
  perfectBonus : ℕ
  slowNotes : ℕ
deriving DecidableEq

/-- Hit ratings from `types.ts`. -/
inductive HitRating where
  | perfect
  | great
  | good
  | miss
deriving DecidableEq

/-- A falling note from `types.ts` (the cosmetic string id and the unused
`holdDuration` are not modelled; no claim depends on them). -/
structure Note where
  lane : ℕ
  type : NoteType
  spawnTime : ℚ
  hitTime : ℚ
  y : ℚ
  hit : Bool
  missed : Bool
  rating : Option HitRating
deriving DecidableEq

/-- Combo bookkeeping from `types.ts`. -/
structure ComboState where
  current : ℕ
  max : ℕ
  multiplier : ℚ
deriving DecidableEq

/-- Score bookkeeping from `types.ts` (`display` is the eased cosmetic
score; it is carried but not updated by the modelled gameplay step, which
mirrors `updateGameplay` only). -/
structure ScoreState where
  current : ℤ
  display : ℚ
  perfectCount : ℕ
  greatCount : ℕ
  goodCount : ℕ
  missCount : ℕ
deriving DecidableEq

/-- The three screens of the engine state machine. -/
inductive Screen where
  | menu
  | playing
  | results
deriving DecidableEq

/-- The slice of `GameState` that the gameplay simulation reads and
writes: screen, pause flag, simulated time, the spawn cursor and live
generator (private engine fields), the active notes, combo and score.
Canvas height, upgrade levels and the active level configuration are
constant during a level attempt and passed as parameters. -/
structure PlayState where
  screen : Screen
  paused : Bool
  gameTime : ℚ
  nextBeatTime : ℚ
  rng : SeededRandom
  notes : List Note
  combo : ComboState
  score : ScoreState
deriving DecidableEq

/-- `startLevel` (engine lines 565-576) restricted to the modelled state:
fresh generator seeded with `levelNum * 12345`, spawn cursor at 0,
countdown time -2, empty notes, zeroed combo and score. -/
def startLevelState (levelNum : ℕ) : PlayState :=
  { screen := Screen.playing, paused := false, gameTime := -2, nextBeatTime := 0
    rng := ⟨levelNum * 12345⟩, notes := []
    combo := { current := 0, max := 0, multiplier := 1 }
    score := { current := 0, display := 0, perfectCount := 0, greatCount := 0
               goodCount := 0, missCount := 0 } }

/-- Distance of a note to the hit line, `Math.abs(note.y - hitLineY)`. -/
def noteDist (hitLineY : ℚ) (n : Note) : ℚ := jsAbs (n.y - hitLineY)

/-- `dist < closestDist` where `closestDist` starts at `Infinity`: with no
current best every distance qualifies. -/
def beatsBest (d : ℚ) : Option (ℕ × ℚ) → Prop
  | none => True
  | some p => d < p.2

instance (d : ℚ) : (best : Option (ℕ × ℚ)) → Decidable (beatsBest d best)
  | none => Decidable.isTrue trivial
  | some p => inferInstanceAs (Decidable (d < p.2))

/-- The selection scan of `tryHitNote` (engine lines 439-450): walk the
note array keeping the index and distance of the closest unresolved note
of the pressed lane that is strictly inside the effective window
(`if (note.lane === laneIndex && !note.hit && !note.missed)` then
`if (dist < closestDist && dist < effectiveWindow)` update, `closestDist`
starting at infinity). -/
def findClosest (laneIndex : ℕ) (hitLineY window : ℚ) :
    List Note → ℕ → Option (ℕ × ℚ) → Option (ℕ × ℚ)
  | [], _, best => best
  | n :: rest, i, best =>
    let d := noteDist hitLineY n
    let best' :=
      if n.lane = laneIndex ∧ n.hit = false ∧ n.missed = false then
        if beatsBest d best ∧ d < window then some (i, d) else best
      else best
    findClosest laneIndex hitLineY window rest (i + 1) best'

/-- The rating classification of `hitNote` (engine lines 465-477). -/
def ratingFor (cfg : GameConfig) (d : ℚ) : HitRating :=
  if d ≤ cfg.perfectWindow then HitRating.perfect
  else if d ≤ cfg.greatWindow then HitRating.great
  else HitRating.good

/-- The base score of each rating in `hitNote` (100/75/50; a miss never
reaches `hitNote` and scores 0). -/
def baseScoreFor : HitRating → ℕ
  | HitRating.perfect => 100
  | HitRating.great => 75
  | HitRating.good => 50
  | HitRating.miss => 0

/-- `hitNote` (engine lines 459-532) on the note at index `i` at distance
`d`: mark it hit, classify it, bump the rating counter, increment the
combo and recompute the multiplier `1 + floor(current/10) * 0.1`, and add
`floor(baseScore * comboMultiplier * scoreMultiplier)` to the score,
where the score multiplier is `1 + multiplierLevel * 0.15`, plus
`perfectBonusLevel * 0.2` on a perfect.  Cosmetic particles and floating
texts are not modelled. -/
def hitNote (cfg : GameConfig) (upg : UpgradeLevels) (s : PlayState) (i : ℕ) (d : ℚ) : PlayState :=
  match s.notes[i]? with
  | none => s
  | some n =>
    let rating := ratingFor cfg d
    let baseScore := baseScoreFor rating
    let score1 :=
      match rating with
      | HitRating.perfect => { s.score with perfectCount := s.score.perfectCount + 1 }
      | HitRating.great => { s.score with greatCount := s.score.greatCount + 1 }
      | HitRating.good => { s.score with goodCount := s.score.goodCount + 1 }
      | HitRating.miss => s.score
    let n' := { n with hit := true, rating := some rating }
    let cur := s.combo.current + 1
    let combo' : ComboState :=
      { current := cur, max := max s.combo.max cur
        multiplier := 1 + ((cur / 10 : ℕ) : ℚ) * (1 / 10) }
    let scoreMultiplier : ℚ :=
      1 + (upg.multiplier : ℚ) * upgradeEffect "multiplier" +
        (if rating = HitRating.perfect then (upg.perfectBonus : ℚ) * upgradeEffect "perfect_bonus" else 0)
    let finalScore : ℤ := jsFloor ((baseScore : ℚ) * combo'.multiplier * scoreMultiplier)
    let score2 := { score1 with current := score1.current + finalScore }
    { s with notes := s.notes.set i n', combo := combo', score := score2 }

/-- `tryHitNote` (engine lines 432-457): compute the upgrade-widened
window `baseHitWindow * (1 + timingLevel * 0.1)`, select the closest
unresolved in-window note of the lane, and either judge it via `hitNote`
or, on a whiff, change no game state (the whiff only pulses the lane's
cosmetic `hitEffect`). -/
def tryHitNote (cfg : GameConfig) (canvasHeight : ℚ) (upg : UpgradeLevels)
    (s : PlayState) (laneIndex : ℕ) : PlayState :=
  let hitLineY := canvasHeight * cfg.hitLineY
  let windowMultiplier : ℚ := 1 + (upg.timing : ℚ) * upgradeEffect "timing"
  let effectiveWindow := cfg.baseHitWindow * windowMultiplier
  match findClosest laneIndex hitLineY effectiveWindow s.notes 0 none with
  | some p => hitNote cfg upg s p.1 p.2
  | none => s

/-- `missNote` (engine lines 534-563): mark the note missed, count the
miss, and reset the combo unless the unseeded shield roll
(`Math.random() < shieldLevel * 0.08`, modelled by the explicit `roll`
argument) saves it. -/
def missNote (shieldLevel : ℕ) (roll : ℚ) (n : Note) (c : ComboState) (sc : ScoreState) :
    Note × ComboState × ScoreState :=
  let n' := { n with missed := true, rating := some HitRating.miss }
  let sc' := { sc with missCount := sc.missCount + 1 }
  let shieldChance := (shieldLevel : ℚ) * upgradeEffect "combo_shield"
  if roll < shieldChance then (n', c, sc')
  else (n', { c with current := 0, multiplier := 1 }, sc')

/-- Result of the note-advance phase of `updateGameplay`. -/
structure NotesPass where
  notes : List Note
  rolls : List ℚ
  combo : ComboState
  score : ScoreState
deriving DecidableEq

/-- The position-update and miss-detection phase of `updateGameplay`
(engine lines 266-276): every note that is neither hit nor missed gets
`y = -30 + (gameTime - spawnTime) * speed`, and is handed to `missNote`
when `y > hitLineY + 50`.  Hit or missed notes are left untouched.  The
unseeded shield rolls are drawn from `rolls` (1, never below a shield
chance, when exhausted). -/
def moveAndMiss (shieldLevel : ℕ) (hitLineY gameTime speed : ℚ) :
    List Note → List ℚ → ComboState → ScoreState → NotesPass
  | [], rolls, c, sc => { notes := [], rolls := rolls, combo := c, score := sc }
  | n :: rest, rolls, c, sc =>
    if n.hit = false ∧ n.missed = false then
      let n1 := { n with y := -30 + (gameTime - n.spawnTime) * speed }
      if hitLineY + 50 < n1.y then
        let m := missNote shieldLevel (rolls.headD 1) n1 c sc
        let res := moveAndMiss shieldLevel hitLineY gameTime speed rest rolls.tail m.2.1 m.2.2
        { res with notes := m.1 :: res.notes }
      else
        let res := moveAndMiss shieldLevel hitLineY gameTime speed rest rolls c sc
        { res with notes := n1 :: res.notes }
    else
      let res := moveAndMiss shieldLevel hitLineY gameTime speed rest rolls c sc
      { res with notes := n :: res.notes }

/-- The garbage-collection filter of `updateGameplay` (engine line 279):
`notes.filter(n => n.y < canvas.height + 50)`. -/
def cleanupNotes (canvasHeight : ℚ) (notes : List Note) : List Note :=
  notes.filter (fun n => decide (n.y < canvasHeight + 50))

/-- A fresh note pushed by the live spawner (engine lines 232-241 and
248-259): spawn a travel time before its hit time, starting at `y = -30`. -/
def spawnNote (lane : ℕ) (noteHitTime travelTime : ℚ) : Note :=
  { lane := lane, type := NoteType.normal, spawnTime := noteHitTime - travelTime
    hitTime := noteHitTime, y := -30, hit := false, missed := false, rating := none }

/-- State threaded through the live spawn loop. -/
structure SpawnState where
  nextBeatTime : ℚ
  rng : SeededRandom
  notes : List Note
deriving DecidableEq

/-- The live spawn loop of `updateGameplay` (engine lines 210-264),
fuel-bounded:
`while (nextBeatTime < gameTime + travelTime + beatInterval)` process one
beat (skipping the beat at time 0) and advance the cursor by one beat
interval.  `horizon` is the loop bound `gameTime + travelTime +
beatInterval`. -/
def spawnLoop (difficulty beatInterval travelTime horizon : ℚ) :
    ℕ → SpawnState → SpawnState
  | 0, st => st
  | fuel + 1, st =>
    if st.nextBeatTime < horizon then
      let st1 :=
        if 0 < st.nextBeatTime then
          let v1r := st.rng.next
          let st2 :=
            if v1r.1 < noteChanceOf difficulty then
              let v2r := v1r.2.next
              let lane0 := laneOf v2r.1
              let v3r := v2r.2.next
              if v3r.1 < doubleChanceOf difficulty then
                match pickSecondLane lane0 64 v3r.2 with
                | (some l2, r') =>
                  { st with
                      rng := r',
                      notes := st.notes ++ [spawnNote lane0 st.nextBeatTime travelTime,
                                            spawnNote l2 st.nextBeatTime travelTime] }
                | (none, r') =>
                  { st with
                      rng := r',
                      notes := st.notes ++ [spawnNote lane0 st.nextBeatTime travelTime] }
              else
                { st with
                    rng := v3r.2,
                    notes := st.notes ++ [spawnNote lane0 st.nextBeatTime travelTime] }
            else { st with rng := v1r.2 }
          let v4r := st2.rng.next
          if v4r.1 < offBeatChanceOf difficulty then
            let v5r := v4r.2.next
            { st2 with
                rng := v5r.2,
                notes := st2.notes ++
                  [spawnNote (laneOf v5r.1) (st.nextBeatTime + beatInterval / 2) travelTime] }
          else { st2 with rng := v4r.2 }
        else st
      spawnLoop difficulty beatInterval travelTime horizon fuel
        { st1 with nextBeatTime := st1.nextBeatTime + beatInterval }
    else st

/-- `updateGameplay` (engine lines 193-291) restricted to the modelled
state: advance time by the (already clamped) delta, compute the
upgrade-adjusted speed `400 * (1 - slowLevel * 0.05)` and travel time,
run the live spawn loop, advance and miss-check the notes, garbage-collect
notes past `canvasHeight + 50`, and end the level (screen `results`, the
state-machine part of `endLevel`) once `missCount >= 10`.  The cosmetic
beat pulse is not modelled.  `spawnFuel` bounds the modelled spawn-loop
iterations. -/
def updateGameplay (cfg : GameConfig) (canvasHeight : ℚ) (upg : UpgradeLevels)
    (level : LevelConfig) (spawnFuel : ℕ) (dt : ℚ) (rolls : List ℚ) (s : PlayState) : PlayState :=
  let gameTime := s.gameTime + dt
  let speedMultiplier : ℚ := 1 - (upg.slowNotes : ℚ) * upgradeEffect "slow_notes"
  let effectiveSpeed := cfg.baseNoteSpeed * speedMultiplier
  let beatInterval : ℚ := 60 / (level.bpm : ℚ)
  let hitLineY := canvasHeight * cfg.hitLineY
  let travelTime := hitLineY / effectiveSpeed
  let sp := spawnLoop level.difficulty beatInterval travelTime
    (gameTime + travelTime + beatInterval) spawnFuel
    { nextBeatTime := s.nextBeatTime, rng := s.rng, notes := s.notes }
  let mm := moveAndMiss upg.comboShield hitLineY gameTime effectiveSpeed sp.notes rolls s.combo s.score
  let s' : PlayState :=
    { s with
        gameTime := gameTime, nextBeatTime := sp.nextBeatTime, rng := sp.rng,
        notes := cleanupNotes canvasHeight mm.notes, combo := mm.combo, score := mm.score }
  if 10 ≤ s'.score.missCount then { s' with screen := Screen.results } else s'

/-- One frame of `update` (engine lines 170-191) restricted to gameplay:
`updateGameplay` runs exactly when the screen is `playing` and the game
is not paused; otherwise the modelled state is unchanged (the skipped
work is purely cosmetic). -/
def tick (cfg : GameConfig) (canvasHeight : ℚ) (upg : UpgradeLevels)
    (level : LevelConfig) (spawnFuel : ℕ) (dt : ℚ) (rolls : List ℚ) (s : PlayState) : PlayState :=
  if s.screen = Screen.playing ∧ s.paused = false then
    updateGameplay cfg canvasHeight upg level spawnFuel dt rolls s
  else s

/-- Iterated frames with a fixed delta and roll list. -/
def iterTick (cfg : GameConfig) (canvasHeight : ℚ) (upg : UpgradeLevels)
    (level : LevelConfig) (spawnFuel : ℕ) (dt : ℚ) (rolls : List ℚ) :
    ℕ → PlayState → PlayState
  | 0, s => s
  | k + 1, s =>
    iterTick cfg canvasHeight upg level spawnFuel dt rolls k
      (tick cfg canvasHeight upg level spawnFuel dt rolls s)

/-- The `highestLevel` update of `endLevel` (engine lines 592-596): raise
`highestLevel` to `levelNum + 1` exactly when `levelNum >= highestLevel`
and the final score reached `1000 * levelNum`. -/
def endLevelHighest (levelNum highestLevel : ℕ) (score : ℤ) : ℕ :=
  if highestLevel ≤ levelNum ∧ (1000 * levelNum : ℤ) ≤ score then levelNum + 1
  else highestLevel

/-- A JSON-ish dynamic value, rich enough to model what `JSON.parse` can
return plus the JavaScript `undefined` produced by missing-property
access. -/
inductive JVal where
  | undef : JVal
  | null : JVal
  | jbool : Bool → JVal
  | num : ℚ → JVal
  | str : String → JVal
  | arr : List JVal → JVal
  | obj : List (String × JVal) → JVal

/-- JavaScript property access `v[k]`: throws a `TypeError` on `null` or
`undefined` (modelled as `Except.error`), yields the field of an object,
and `undefined` on every other value (none of the accessed keys exists on
primitive wrappers or arrays). -/
def jGet (v : JVal) (k : String) : Except Unit JVal :=
  match v with
  | JVal.null => Except.error ()
  | JVal.undef => Except.error ()
  | JVal.obj fields =>
    Except.ok (((fields.find? (fun p => p.1 == k)).map Prod.snd).getD JVal.undef)
  | _ => Except.ok JVal.undef

/-- JavaScript truthiness (`NaN` does not arise in the model). -/
def truthy : JVal → Bool
  | JVal.undef => false
  | JVal.null => false
  | JVal.jbool b => b
  | JVal.num q => !(decide (q = 0))
  | JVal.str s => !(s == "")
  | JVal.arr _ => true
  | JVal.obj _ => true

/-- The elements a `for..of` loop or the `Map` constructor would iterate:
arrays yield their elements, strings their characters (as one-character
strings), everything else is not iterable (`none` models the thrown
`TypeError`). -/
def jsElems : JVal → Option (List JVal)
  | JVal.arr xs => some xs
  | JVal.str s => some (s.data.map (fun c => JVal.str (String.mk [c])))
  | _ => none

/-- JavaScript `===` between a known string and a dynamic value. -/
def jsStrictEqStr (s : String) (v : JVal) : Bool :=
  match v with
  | JVal.str t => s == t
  | _ => false

/-- The `length` property as read by `data.keybinds.length`: defined for
arrays and strings, `undefined` (here `none`) otherwise. -/
def jsLength : JVal → Option ℕ
  | JVal.arr xs => some xs.length
  | JVal.str s => some s.length
  | _ => none

/-- The persisted progression slice of the engine state touched by
`loadProgress`.  Fields hold dynamic values because the loader copies
whatever the parsed blob contains. -/
structure ProgressState where
  totalPoints : JVal
  highestLevel : JVal
  upgradeLevels : List (String × JVal)
  levelHighScores : List (JVal × JVal)
  levelMaxCombos : List (JVal × JVal)
  keybinds : List JVal

/-- The default progression state built by the engine constructor
(engine lines 92-113): 0 points, highest level 1, every catalog upgrade
at level 0, empty record maps, keybinds D/F/J/K. -/
def defaultProgress : ProgressState :=
  { totalPoints := JVal.num 0
    highestLevel := JVal.num 1
    upgradeLevels := UPGRADE_DEFINITIONS.map (fun u => (u.id, JVal.num 0))
    levelHighScores := []
    levelMaxCombos := []
    keybinds := [JVal.str "D", JVal.str "F", JVal.str "J", JVal.str "K"] }

/-- The `for (const savedUpgrade of data.upgrades || [])` loop (engine
lines 701-706): each element's `id` is read (throwing on `null` or
`undefined` elements, with the mutations so far kept in the error), and a
catalog upgrade with a strictly-equal id gets its level overwritten by
the element's `level` property. -/
def applyUpgrades (catalog : List (String × JVal)) :
    List JVal → Except (List (String × JVal)) (List (String × JVal))
  | [] => Except.ok catalog
  | e :: rest =>
    match jGet e "id" with
    | Except.error _ => Except.error catalog
    | Except.ok idv =>
      let catalog' := catalog.map (fun p =>
        if jsStrictEqStr p.1 idv then (p.1, ((jGet e "level").toOption).getD JVal.undef) else p)
      applyUpgrades catalog' rest

/-- The entry list built by `new Map(v)`: `v` must be iterable and each
element iterable, an element's first two items forming the entry (the
thrown `TypeError` is `none`). -/
def jsMapEntries (v : JVal) : Option (List (JVal × JVal)) :=
  match jsElems v with
  | none => none
  | some xs =>
    xs.foldr (fun e acc =>
      match jsElems e, acc with
      | some es, some entries => some ((es.getD 0 JVal.undef, es.getD 1 JVal.undef) :: entries)
      | _, _ => none) (some [])

/-- The body of the `try` block of `loadProgress` (engine lines 697-721)
on parsed data: assign `totalPoints` and `highestLevel` with `|| `
defaulting, replay the upgrades loop, rebuild the two record maps when
their fields are truthy, and adopt `keybinds` when it has exactly
`laneCount = 4` entries.  An error carries the partially mutated state at
the point the corresponding JavaScript would throw. -/
def loadBody (data : JVal) (s0 : ProgressState) : Except ProgressState ProgressState :=
  match jGet data "totalPoints" with
  | Except.error _ => Except.error s0
  | Except.ok tp =>
  let s1 := { s0 with totalPoints := if truthy tp then tp else JVal.num 0 }
  match jGet data "highestLevel" with
  | Except.error _ => Except.error s1
  | Except.ok hl =>
  let s2 := { s1 with highestLevel := if truthy hl then hl else JVal.num 1 }
  match jGet data "upgrades" with
  | Except.error _ => Except.error s2
  | Except.ok upRaw =>
  let upSrc := if truthy upRaw then upRaw else JVal.arr []
  match jsElems upSrc with
  | none => Except.error s2
  | some elems =>
  match applyUpgrades s2.upgradeLevels elems with
  | Except.error cat' => Except.error { s2 with upgradeLevels := cat' }
  | Except.ok cat =>
  let s3 := { s2 with upgradeLevels := cat }
  match jGet data "levelHighScores" with
  | Except.error _ => Except.error s3
  | Except.ok lhs =>
  match (if truthy lhs then (jsMapEntries lhs).map some else some none : Option (Option (List (JVal × JVal)))) with
  | none => Except.error s3
  | some entriesOpt =>
  let s4 := match entriesOpt with
    | some entries => { s3 with levelHighScores := entries }
    | none => s3
  match jGet data "levelMaxCombos" with
  | Except.error _ => Except.error s4
  | Except.ok lmc =>
  match (if truthy lmc then (jsMapEntries lmc).map some else some none : Option (Option (List (JVal × JVal)))) with
  | none => Except.error s4
  | some entriesOpt2 =>
  let s5 := match entriesOpt2 with
    | some entries => { s4 with levelMaxCombos := entries }
    | none => s4
  match jGet data "keybinds" with
  | Except.error _ => Except.error s5
  | Except.ok kb =>
  if truthy kb && (jsLength kb == some 4) then
    Except.ok { s5 with keybinds := (jsElems kb).getD [] }
  else
    Except.ok s5

/-- `loadProgress` (engine lines 692-725): a missing or unparsable blob
(`none`) changes nothing, and the whole body runs inside `try { ... }
catch { console.warn }`, so a thrown `TypeError` leaves the state as
mutated up to that point.  No exception escapes. -/
def loadProgress (input : Option JVal) (s : ProgressState) : ProgressState :=
  match input with
  | none => s
  | some data =>
    match loadBody data s with
    | Except.ok s' => s'
    | Except.error sPart => sPart

/-- A schema-mismatched but parsable blob: `totalPoints` is a number, but
`upgrades` is not iterable, so the loader assigns 7 and then throws
internally. -/
def corruptSave : JVal :=
  JVal.obj [("totalPoints", JVal.num 7), ("upgrades", JVal.num 42)]

/-- The combo-multiplier invariant of the spec:
`multiplier = 1 + floor(current / 10) * 0.1`. -/
def comboInvariant (c : ComboState) : Prop :=
  c.multiplier = 1 + ((c.current / 10 : ℕ) : ℚ) * (1 / 10)

/-- A note qualifies for hit selection in a lane when it is in that lane
and neither hit nor missed. -/
def isCandidate (laneIndex : ℕ) (n : Note) : Prop :=
  n.lane = laneIndex ∧ n.hit = false ∧ n.missed = false

/-- The first catalog entry, used as a concrete witness. -/
def timingUpgrade : UpgradeDef :=
  { id := "timing", baseCost := 100, maxLevel := 10, effect := 1 / 10 }

/-- All upgrades at level 0 (a fresh save). -/
def noUpgrades : UpgradeLevels :=
  { timing := 0, multiplier := 0, comboShield := 0, perfectBonus := 0, slowNotes := 0 }

/-- A concrete unresolved note in a given lane at a given height. -/
def noteAt (lane : ℕ) (y : ℚ) : Note :=
  { lane := lane, type := NoteType.normal, spawnTime := 0, hitTime := 0, y := y
    hit := false, missed := false, rating := none }

/-- Concrete state for the two-note hit-window scenario: on an 800px
canvas the hit line is at `800 * 0.85 = 680`, so notes at y = 710 and
y = 760 sit at distances 30 and 80. -/
def twoNoteState : PlayState :=
  { startLevelState 1 with notes := [noteAt 0 710, noteAt 0 760] }

/-- Concrete state with only the distance-80 note. -/
def oneNoteState : PlayState :=
  { startLevelState 1 with notes := [noteAt 0 760] }

/-- A concrete already-hit note frozen at y = 600 (on-screen for an 800px
canvas): `updateGameplay` recomputes positions only for unresolved notes,
so its y never changes again. -/
def frozenHitNote : Note :=
  { lane := 0, type := NoteType.normal, spawnTime := 0, hitTime := 17 / 10, y := 600
    hit := true, missed := false, rating := some HitRating.perfect }

/-- The note-set effect of one gameplay tick (position update, miss
detection, garbage collection), viewed on the note list alone: the
resulting note list of `moveAndMiss` does not depend on the combo, score
or shield rolls, which are passed zeroed here. -/
def notePhaseNotes (shieldLevel : ℕ) (canvasHeight hitLineY gameTime speed : ℚ)
    (notes : List Note) : List Note :=
  cleanupNotes canvasHeight
    (moveAndMiss shieldLevel hitLineY gameTime speed notes []
      { current := 0, max := 0, multiplier := 1 }
      { current := 0, display := 0, perfectCount := 0, greatCount := 0
        goodCount := 0, missCount := 0 }).notes

/-- The note list after `k` gameplay ticks at game times
`times 0, times 1, ...`. -/
def notePhaseIter (shieldLevel : ℕ) (canvasHeight hitLineY speed : ℚ) (times : ℕ → ℚ) :
    ℕ → List Note → List Note
  | 0, ns => ns
  | k + 1, ns =>
    notePhaseIter shieldLevel canvasHeight hitLineY speed times k
      (notePhaseNotes shieldLevel canvasHeight hitLineY (times k) speed ns)

theorem upgradeEffect_timing : upgradeEffect "timing" = 1 / 10 := rfl

theorem upgradeEffect_shield : upgradeEffect "combo_shield" = 8 / 100 := rfl

/-- C2: for every level number `n`, `generateLevel n` is deterministic
(equal to itself on re-invocation, being a pure function of `n`), with
BPM `80 + min(n*5, 120)`, duration `min(20 + n*2, 60)` seconds,
difficulty `1 + (n-1)*0.15`, and a pattern list produced by
`generatePatterns` from a sequence generator seeded with `n * 12345`. -/
theorem C2_generateLevel_deterministic :
    ∀ n : ℕ,
      generateLevel n = generateLevel n ∧
      (generateLevel n).bpm = 80 + min (n * 5) 120 ∧
      (generateLevel n).duration = min (20 + n * 2) 60 ∧
      (generateLevel n).difficulty = 1 + ((n : ℚ) - 1) * (15 / 100) ∧
      (generateLevel n).patterns =
        generatePatterns (80 + min (n * 5) 120) (min (20 + n * 2) 60)
          (1 + ((n : ℚ) - 1) * (15 / 100)) ⟨n * 12345⟩ :=
  fun _ => ⟨rfl, rfl, rfl, rfl, rfl⟩

theorem nextValue_range (m : ℕ) (hm : m < 2 ^ 31) :
    0 ≤ (m : ℚ) / (2 ^ 31 - 1) ∧ (m : ℚ) / (2 ^ 31 - 1) ≤ 1 ∧
      ((m : ℚ) / (2 ^ 31 - 1) = 1 ↔ m = 2 ^ 31 - 1) := by
  have hcast : ((2 ^ 31 - 1 : ℕ) : ℚ) = (2 : ℚ) ^ 31 - 1 := by
    rw [Nat.cast_sub (by norm_num)]
    norm_num
  have hden : ((2 : ℚ) ^ 31 - 1) ≠ 0 := by norm_num
  refine ⟨div_nonneg (Nat.cast_nonneg m) (by norm_num), ?_, ?_⟩
  · rw [div_le_one (by norm_num)]
    rw [← hcast]
    exact_mod_cast Nat.le_sub_one_of_lt hm
  · rw [div_eq_one_iff_eq hden, ← hcast]
    exact Nat.cast_inj

theorem bitLen_zero : ∀ fuel : ℕ, bitLen fuel 0 = 0 := by
  intro fuel
  cases fuel <;> rfl

theorem bitLen_le : ∀ (fuel n : ℕ), bitLen fuel n ≤ fuel := by
  intro fuel
  induction fuel with
  | zero => intro n; exact le_refl _
  | succ fuel ih =>
    intro n
    show (if n = 0 then 0 else bitLen fuel (n / 2) + 1) ≤ fuel + 1
    split_ifs
    · omega
    · exact Nat.succ_le_succ (ih _)

theorem bitLen_spec : ∀ (fuel n : ℕ), n < 2 ^ fuel → n ≠ 0 →
    2 ^ (bitLen fuel n - 1) ≤ n ∧ n < 2 ^ bitLen fuel n := by
  intro fuel
  induction fuel with
  | zero =>
    intro n h hn
    omega
  | succ fuel ih =>
    intro n h hn
    show 2 ^ ((if n = 0 then 0 else bitLen fuel (n / 2) + 1) - 1) ≤ n ∧
      n < 2 ^ (if n = 0 then 0 else bitLen fuel (n / 2) + 1)
    rw [if_neg hn]
    by_cases h2 : n / 2 = 0
    · have hn1 : n = 1 := by omega
      subst hn1
      rw [bitLen_zero]
      norm_num
    · have hhalf : n / 2 < 2 ^ fuel := by
        have : 2 ^ (fuel + 1) = 2 ^ fuel * 2 := pow_succ 2 fuel
        omega
      obtain ⟨hlow, hhigh⟩ := ih (n / 2) hhalf h2
      have hb1 : 1 ≤ bitLen fuel (n / 2) := by
        by_contra hb
        have hb0 : bitLen fuel (n / 2) = 0 := by omega
        rw [hb0] at hhigh
        omega
      have hsplit : 2 ^ bitLen fuel (n / 2) = 2 * 2 ^ (bitLen fuel (n / 2) - 1) := by
        rw [← pow_succ']
        congr 1
        omega
      constructor
      · simpa [Nat.add_sub_cancel, hsplit] using (by omega :
          2 * 2 ^ (bitLen fuel (n / 2) - 1) ≤ n)
      · have : 2 ^ (bitLen fuel (n / 2) + 1) = 2 * 2 ^ bitLen fuel (n / 2) := by
          rw [← pow_succ']
        omega

theorem fl64round_of_lt (n : ℕ) (h : n < 2 ^ 53) : fl64round n = n := by
  unfold fl64round
  rw [if_pos h]

theorem fl64round_facts (n : ℕ) (h53 : 2 ^ 53 ≤ n) (h64 : n < 2 ^ 64) :
    2 ∣ fl64round n ∧ 2 ^ 53 ≤ fl64round n ∧ fl64round n ≤ n + 2048 := by
  have hn : n ≠ 0 := by omega
  obtain ⟨hlow, hhigh⟩ := bitLen_spec 64 n h64 hn
  have hL64 : bitLen 64 n ≤ 64 := bitLen_le 64 n
  have hL54 : 54 ≤ bitLen 64 n := by
    by_contra hb
    have : 2 ^ bitLen 64 n ≤ 2 ^ 53 := Nat.pow_le_pow_right (by norm_num) (by omega)
    omega
  set L := bitLen 64 n with hLdef
  set e := L - 53 with hedef
  have hepos : 1 ≤ e := by omega
  have hdvd : (2 : ℕ) ∣ 2 ^ e := dvd_pow_self 2 (by omega)
  have hq : 2 ^ 52 ≤ n / 2 ^ e := by
    rw [Nat.le_div_iff_mul_le (Nat.pos_pow_of_pos e (by norm_num))]
    calc 2 ^ 52 * 2 ^ e = 2 ^ (52 + e) := (pow_add 2 52 e).symm
      _ ≤ 2 ^ (L - 1) := Nat.pow_le_pow_right (by norm_num) (by omega)
      _ ≤ n := hlow
  have hbase : 2 ^ 53 ≤ n / 2 ^ e * 2 ^ e := by
    calc (2 : ℕ) ^ 53 ≤ 2 ^ (52 + e) := Nat.pow_le_pow_right (by norm_num) (by omega)
      _ = 2 ^ 52 * 2 ^ e := pow_add 2 52 e
      _ ≤ n / 2 ^ e * 2 ^ e := Nat.mul_le_mul_right _ hq
  have he2048 : 2 ^ e ≤ 2048 := by
    calc (2 : ℕ) ^ e ≤ 2 ^ 11 := Nat.pow_le_pow_right (by norm_num) (by omega)
      _ = 2048 := by norm_num
  have hqmul : n / 2 ^ e * 2 ^ e ≤ n := Nat.div_mul_le_self n (2 ^ e)
  simp only [fl64round]
  rw [if_neg (by omega), ← hLdef, ← hedef]
  split_ifs
  all_goals refine ⟨Dvd.dvd.mul_left hdvd _, ?_, ?_⟩
  · exact hbase
  · exact le_trans hqmul (Nat.le_add_right _ _)
  · exact le_trans hbase (Nat.mul_le_mul_right _ (Nat.le_succ _))
  · calc (n / 2 ^ e + 1) * 2 ^ e = n / 2 ^ e * 2 ^ e + 2 ^ e := by ring
      _ ≤ n + 2048 := Nat.add_le_add hqmul he2048
  · exact hbase
  · exact le_trans hqmul (Nat.le_add_right _ _)
  · exact le_trans hbase (Nat.mul_le_mul_right _ (Nat.le_succ _))
  · calc (n / 2 ^ e + 1) * 2 ^ e = n / 2 ^ e * 2 ^ e + 2 ^ e := by ring
      _ ≤ n + 2048 := Nat.add_le_add hqmul he2048

theorem fl64round_step_even (n : ℕ) (h53 : 2 ^ 53 ≤ n + 12345) (h63 : n < 2 ^ 63) :
    2 ∣ fl64round (fl64round n + 12345) := by
  by_cases hp : n < 2 ^ 53
  · rw [fl64round_of_lt n hp]
    exact (fl64round_facts (n + 12345) h53 (by omega)).1
  · push_neg at hp
    have hnum : n + 2048 + 12345 < 2 ^ 64 := by omega
    obtain ⟨-, hge, hle⟩ := fl64round_facts n hp (by omega)
    exact (fl64round_facts (fl64round n + 12345)
      (le_trans hge (Nat.le_add_right _ _))
      (lt_of_le_of_lt (Nat.add_le_add_right hle _) hnum)).1

set_option maxHeartbeats 4000000 in
/-- Under the bit-exact float64 semantics the masked seed `2^31 - 1` is
unreachable from any seed below `2^32`: strictly below the rounding
threshold the unique 31-bit preimage would be the seed 230538014, which
is far above that threshold, and at or above it every float64-rounded
update is even while `2^31 - 1` is odd. -/
theorem jsNextSeed_ne (s : ℕ) (hs32 : s < 2 ^ 32) : jsNextSeed s ≠ 2 ^ 31 - 1 := by
  by_cases hs : s * 1103515245 + 12345 < 2 ^ 53
  · have hseq : jsNextSeed s = (s * 1103515245 + 12345) % 2 ^ 31 := by
      unfold jsNextSeed
      rw [fl64round_of_lt (s * 1103515245) (by omega), fl64round_of_lt _ hs]
    rw [hseq]
    clear hseq
    have hsmall : s ≤ 8162278 := by omega
    intro hcontra
    have h1 : (s * 1103515245) % 2 ^ 31 = 2147471302 := by
      rw [Nat.add_mod] at hcontra
      have ha : s * 1103515245 % 2 ^ 31 < 2 ^ 31 := Nat.mod_lt _ (by norm_num)
      generalize s * 1103515245 % 2 ^ 31 = a at hcontra ha ⊢
      omega
    have h2 : s * 1103515245 * 1857678181 % 2 ^ 31 = 2147471302 * 1857678181 % 2 ^ 31 := by
      rw [Nat.mul_mod, h1]
      norm_num
    have h3 : s * 1103515245 * 1857678181 % 2 ^ 31 = s % 2 ^ 31 := by
      rw [mul_assoc, (by norm_num : (1103515245 * 1857678181 : ℕ) = 954594553 * 2 ^ 31 + 1),
        mul_add, mul_one, ← mul_assoc, add_comm]
      exact Nat.add_mul_mod_self_right _ _ _
    have h4 : s % 2 ^ 31 = 230538014 := by
      rw [← h3, h2]
      norm_num
    clear hcontra h1 h2 h3
    omega
  · push_neg at hs
    have heven : 2 ∣ fl64round (fl64round (s * 1103515245) + 12345) :=
      fl64round_step_even (s * 1103515245) hs (by omega)
    have h2 : (2 : ℕ) ∣ jsNextSeed s := by
      unfold jsNextSeed
      exact (Nat.dvd_mod_iff (dvd_pow_self 2 (by norm_num))).mpr heven
    intro hcontra
    rw [hcontra] at h2
    exact absurd h2 (by decide)

/-- C4 counterexample: the code does not perform the exact integer
recurrence.  The level-1 stream starts at seed 12345; its first step is
still exact (masked seed 1406932606), but at that state the float64
product `1406932606 * 1103515245 ≈ 1.55e18` is rounded (the exact product
is not a 53-bit value), and the update yields 654583808 where the exact
integer recurrence yields 654583775.  At seed 230538014 — the unique
31-bit state whose exact update would give `2^31 - 1` and value 1 — the
rounded computation gives masked seed 0 and value 0 instead. -/
theorem C4_counterexample :
    jsNextSeed 12345 = 1406932606 ∧
    jsNextSeed 1406932606 = 654583808 ∧
    (1406932606 * 1103515245 + 12345) % 2 ^ 31 = 654583775 ∧
    jsNextSeed 1406932606 ≠ (1406932606 * 1103515245 + 12345) % 2 ^ 31 ∧
    jsNextSeed 230538014 = 0 ∧ jsNextValue 230538014 = 0 := by
  refine ⟨by decide, by decide, by decide, by decide, by decide, by decide⟩

/-- C4 amended: `next()` updates the seed by the float64 evaluation of
`seed * 1103515245 + 12345` masked to 31 bits — the product and the sum
each rounded to 53-bit double precision — which coincides with the exact
integer recurrence precisely when `seed * 1103515245 + 12345 < 2^53`
(seeds up to 8 162 278) and diverges above; the returned value is the
new masked seed divided by `2^31 - 1` and, for every seed below `2^32`,
does lie in `[0, 1)`: the masked seed `2^31 - 1` is unreachable because
every rounded update is even. -/
theorem C4_seededRandom_amended :
    (∀ s : ℕ, jsNextSeed s = fl64round (fl64round (s * 1103515245) + 12345) % 2 ^ 31) ∧
    (∀ s : ℕ, s * 1103515245 + 12345 < 2 ^ 53 →
      jsNextSeed s = (s * 1103515245 + 12345) % 2 ^ 31) ∧
    (∀ s : ℕ, jsNextValue s = (jsNextSeed s : ℚ) / (2 ^ 31 - 1)) ∧
    (∀ s : ℕ, s < 2 ^ 32 → jsNextSeed s ≠ 2 ^ 31 - 1) ∧
    (∀ s : ℕ, s < 2 ^ 32 → 0 ≤ jsNextValue s ∧ jsNextValue s < 1) := by
  refine ⟨fun s => rfl, ?_, fun s => rfl, jsNextSeed_ne, ?_⟩
  · intro s hs
    unfold jsNextSeed
    rw [fl64round_of_lt (s * 1103515245) (by omega), fl64round_of_lt _ hs]
  · intro s hs32
    have hlt : jsNextSeed s < 2 ^ 31 := by
      unfold jsNextSeed
      exact Nat.mod_lt _ (by norm_num)
    have h := nextValue_range (jsNextSeed s) hlt
    exact ⟨h.1, lt_of_le_of_ne h.2.1 (fun heq => jsNextSeed_ne s hs32 (h.2.2.mp heq))⟩

theorem C4_seededRandom_amended_witness :
    12345 * 1103515245 + 12345 < 2 ^ 53 ∧
    jsNextSeed 12345 = (12345 * 1103515245 + 12345) % 2 ^ 31 ∧
    (1406932606 : ℕ) < 2 ^ 32 ∧
    jsNextSeed 1406932606 ≠ 2 ^ 31 - 1 ∧
    0 ≤ jsNextValue 1406932606 ∧ jsNextValue 1406932606 < 1 :=
  ⟨by norm_num, C4_seededRandom_amended.2.1 12345 (by norm_num),
   by norm_num, C4_seededRandom_amended.2.2.2.1 1406932606 (by norm_num),
   (C4_seededRandom_amended.2.2.2.2 1406932606 (by norm_num)).1,
   (C4_seededRandom_amended.2.2.2.2 1406932606 (by norm_num)).2⟩

/-- C6: the `highestLevel` update of `endLevel` agrees, as a function of
the finished level, the previous `highestLevel` and the final score, with
the claimed rule: it becomes `levelNum + 1` exactly when the score is at
least `1000 * levelNum` and the finished level is at least
`highestLevel - 1` (at `levelNum = highestLevel - 1` both rules leave the
value at `highestLevel = levelNum + 1`).  In particular finishing the
frontier level with exactly `1000 * levelNum` unlocks the next level and
one point less does not. -/
theorem C6_level_unlock :
    (∀ (levelNum highestLevel : ℕ) (score : ℤ),
        endLevelHighest levelNum highestLevel score =
          if highestLevel - 1 ≤ levelNum ∧ (1000 * levelNum : ℤ) ≤ score then levelNum + 1
          else highestLevel) ∧
    (∀ levelNum : ℕ, endLevelHighest levelNum levelNum (1000 * levelNum) = levelNum + 1) ∧
    (∀ levelNum : ℕ,
        endLevelHighest (levelNum + 1) (levelNum + 1) ((1000 * (levelNum + 1) : ℤ) - 1) =
          levelNum + 1) := by
  refine ⟨?_, ?_, ?_⟩
  · intro lv h sc
    unfold endLevelHighest
    split_ifs with h1 h2 h2 <;> omega
  · intro lv
    unfold endLevelHighest
    rw [if_pos ⟨le_refl _, le_refl _⟩]
  · intro lv
    unfold endLevelHighest
    rw [if_neg]
    rintro ⟨-, h2⟩
    omega

/-- C8 counterexample: for the timing upgrade (base cost 100) the cost at
level 2 is 225 and at level 3 is `floor(337.5) = 337`, so the cost does
not grow by exactly a factor of 1.5 (`2 * 337 = 674 ≠ 675 = 3 * 225`). -/
theorem C8_counterexample :
    timingUpgrade ∈ UPGRADE_DEFINITIONS ∧
    getUpgradeCost timingUpgrade 2 = 225 ∧
    getUpgradeCost timingUpgrade 3 = 337 ∧
    ¬ (2 * getUpgradeCost timingUpgrade 3 = 3 * getUpgradeCost timingUpgrade 2) := by
  refine ⟨by decide, by decide, by decide, by decide⟩

/-- C8 amended: `cost(upgrade) = floor(baseCost * 1.5 ^ currentLevel)`;
for every catalog upgrade and every level below its max level the cost is
strictly increasing, and the pre-floor value `baseCost * 1.5 ^ level`
grows by exactly a factor 1.5 per level (the floored cost only
approximately). -/
theorem C8_upgrade_cost_amended :
    (∀ (u : UpgradeDef) (l : ℕ), getUpgradeCost u l = jsFloor ((u.baseCost : ℚ) * (3 / 2) ^ l)) ∧
    (∀ u ∈ UPGRADE_DEFINITIONS, ∀ l < u.maxLevel, getUpgradeCost u l < getUpgradeCost u (l + 1)) ∧
    (∀ (u : UpgradeDef) (l : ℕ),
        (u.baseCost : ℚ) * (3 / 2) ^ (l + 1) = (3 / 2) * ((u.baseCost : ℚ) * (3 / 2) ^ l)) := by
  refine ⟨fun u l => rfl, by decide, fun u l => by ring⟩

theorem C8_upgrade_cost_amended_witness :
    timingUpgrade ∈ UPGRADE_DEFINITIONS ∧ 0 < timingUpgrade.maxLevel ∧
    getUpgradeCost timingUpgrade 0 < getUpgradeCost timingUpgrade 1 :=
  ⟨by decide, by decide, C8_upgrade_cost_amended.2.1 timingUpgrade (by decide) 0 (by decide)⟩

/-- C3 counterexample: at level 2 (BPM 90, beat interval 60/90 = 2/3 s,
duration 24 s) the live spawning loop of `updateGameplay` emits a note at
beat 1 — the pair `(2/3 s, lane 3)` — because it skips only the beat at
time 0, while `generateLevelFl 2`'s pre-rendered pattern list, which
skips beats 0-3, contains no note at that absolute time, so the live
spawn set and the pattern list mapped to absolute times differ.  Both
sides draw from the float64-faithful random stream `jsDraw` seeded with
`levelNum * 12345`. -/
theorem C3_counterexample :
    ((2 / 3 : ℚ), 3) ∈ liveSpawnPairsFl 2 36 ∧
    ((2 / 3 : ℚ), 3) ∉ patternPairs (generateLevelFl 2) := by
  decide

/-- C3 amended: the live spawner and the pattern generator do use the
same seed (`levelNum * 12345`) and the same per-beat probability
formulas, but they do not agree: the live loop skips only beat 0 while
`generatePatterns` skips beats 0-3 (and only the latter has the triplet
branch and the 0.95 off-beat cutoff), so already at level 2 the live
loop spawns `(2/3 s, lane 3)` during beat 1 while every entry of the
pre-rendered pattern list lies at or after beat 4, i.e. at absolute time
`>= 8/3 s`.  Both sides are evaluated over the float64-faithful stream
`jsDraw`. -/
theorem C3_live_vs_pregen_amended :
    ((2 / 3 : ℚ), 3) ∈ liveSpawnPairsFl 2 36 ∧
    (∀ q ∈ patternPairs (generateLevelFl 2), (8 / 3 : ℚ) ≤ q.1) ∧
    (2 / 3 : ℚ) < 8 / 3 := by
  refine ⟨by decide, by decide, by norm_num⟩

theorem C3_live_vs_pregen_amended_witness :
    ((8 / 3 : ℚ), 3) ∈ patternPairs (generateLevelFl 2) ∧
    (8 / 3 : ℚ) ≤ ((8 / 3 : ℚ), 3).1 :=
  ⟨by decide, C3_live_vs_pregen_amended.2.1 ((8 / 3 : ℚ), 3) (by decide)⟩

/-- C5: the multiplier invariant `multiplier = 1 + floor(current/10)*0.1`
holds after every hit and after every miss; an unshielded miss resets the
combo to 0 and the multiplier to 1, a shielded miss leaves the combo
state unchanged, and a level start resets the combo to
`(current, max, multiplier) = (0, 0, 1)`, which satisfies the
invariant. -/
theorem C5_combo_invariant :
    (∀ (cfg : GameConfig) (upg : UpgradeLevels) (s : PlayState) (i : ℕ) (d : ℚ) (n : Note),
        s.notes[i]? = some n → comboInvariant (hitNote cfg upg s i d).combo) ∧
    (∀ (shieldLevel : ℕ) (roll : ℚ) (n : Note) (c : ComboState) (sc : ScoreState),
        ¬ roll < (shieldLevel : ℚ) * upgradeEffect "combo_shield" →
          (missNote shieldLevel roll n c sc).2.1.current = 0 ∧
          (missNote shieldLevel roll n c sc).2.1.multiplier = 1 ∧
          comboInvariant (missNote shieldLevel roll n c sc).2.1) ∧
    (∀ (shieldLevel : ℕ) (roll : ℚ) (n : Note) (c : ComboState) (sc : ScoreState),
        roll < (shieldLevel : ℚ) * upgradeEffect "combo_shield" →
          (missNote shieldLevel roll n c sc).2.1 = c) ∧
    (∀ levelNum : ℕ,
        (startLevelState levelNum).combo = { current := 0, max := 0, multiplier := 1 } ∧
        comboInvariant (startLevelState levelNum).combo) := by
  refine ⟨?_, ?_, ?_, ?_⟩
  · intro cfg upg s i d n h
    unfold hitNote
    rw [h]
    rfl
  · intro shieldLevel roll n c sc h
    unfold missNote
    rw [if_neg h]
    refine ⟨rfl, rfl, ?_⟩
    unfold comboInvariant
    norm_num
  · intro shieldLevel roll n c sc h
    unfold missNote
    rw [if_pos h]
  · intro levelNum
    exact ⟨rfl, by unfold comboInvariant startLevelState; norm_num⟩

theorem C5_combo_invariant_witness :
    ({ startLevelState 1 with notes := [noteAt 0 710] } : PlayState).notes[0]? = some (noteAt 0 710) ∧
    comboInvariant (hitNote DEFAULT_CONFIG noUpgrades
      { startLevelState 1 with notes := [noteAt 0 710] } 0 30).combo ∧
    ¬ (1 : ℚ) < (0 : ℚ) * upgradeEffect "combo_shield" ∧
    (missNote 0 1 (noteAt 0 760) { current := 7, max := 7, multiplier := 1 }
        (startLevelState 1).score).2.1.current = 0 ∧
    (0 : ℚ) < (1 : ℚ) * upgradeEffect "combo_shield" ∧
    (missNote 1 0 (noteAt 0 760) { current := 7, max := 7, multiplier := 1 }
        (startLevelState 1).score).2.1 = { current := 7, max := 7, multiplier := 1 } := by
  refine ⟨rfl, ?_, by norm_num [upgradeEffect_shield], ?_, by norm_num [upgradeEffect_shield], ?_⟩
  · exact C5_combo_invariant.1 DEFAULT_CONFIG noUpgrades _ 0 30 (noteAt 0 710) rfl
  · exact (C5_combo_invariant.2.1 0 1 (noteAt 0 760) _ _
      (by norm_num [upgradeEffect_shield])).1
  · exact C5_combo_invariant.2.2.1 1 0 (noteAt 0 760) _ _
      (by norm_num [upgradeEffect_shield])

/-- C9 counterexample: the parsable but schema-mismatched blob
`totalPoints 7, upgrades 42` does not leave the engine in its
default state: `totalPoints` is assigned 7 before the upgrades loop
throws (the error is caught, keeping the partial mutation). -/
theorem C9_counterexample :
    loadProgress (some corruptSave) defaultProgress ≠ defaultProgress := by
  intro h
  have h2 : JVal.num 7 = JVal.num 0 := congrArg ProgressState.totalPoints h
  injection h2 with h3
  norm_num at h3

/-- C9 amended: the loader never lets an exception escape (it is a total
function, every internal throw being caught with the state as mutated so
far), and non-JSON input — `none`, parse failure — changes nothing, as do
schema mismatches whose fields are missing or fail the truthiness or
length guards (a primitive number, a string, or `null` blob leaves the
default state intact).  However, a schema-mismatched object can partially
apply before an internal type error: `corruptSave` leaves the default
state with `totalPoints = 7`. -/
theorem C9_load_resilience_amended :
    (∀ s : ProgressState, loadProgress none s = s) ∧
    loadProgress (some (JVal.num 42)) defaultProgress = defaultProgress ∧
    loadProgress (some (JVal.str "garbage")) defaultProgress = defaultProgress ∧
    loadProgress (some JVal.null) defaultProgress = defaultProgress ∧
    (loadProgress (some corruptSave) defaultProgress).totalPoints = JVal.num 7 ∧
    (loadProgress (some corruptSave) defaultProgress).highestLevel = JVal.num 1 :=
  ⟨fun _ => rfl, rfl, rfl, rfl, rfl, rfl⟩


theorem findClosest_spec (laneIndex : ℕ) (hitLineY window : ℚ) :
    ∀ (l : List Note) (i0 : ℕ) (best : Option (ℕ × ℚ)),
      (∀ p : ℕ × ℚ, best = some p → p.2 < window) →
      (findClosest laneIndex hitLineY window l i0 best = none →
        best = none ∧
        ∀ n ∈ l, isCandidate laneIndex n → ¬ noteDist hitLineY n < window) ∧
      (∀ i d, findClosest laneIndex hitLineY window l i0 best = some (i, d) →
        d < window ∧
        (∀ n ∈ l, isCandidate laneIndex n → noteDist hitLineY n < window →
          d ≤ noteDist hitLineY n) ∧
        (∀ p : ℕ × ℚ, best = some p → d ≤ p.2) ∧
        (best = some (i, d) ∨
          ∃ j n, l[j]? = some n ∧ i = i0 + j ∧ isCandidate laneIndex n ∧
            d = noteDist hitLineY n)) := by
  intro l
  induction l with
  | nil =>
    intro i0 best hacc
    constructor
    · intro h
      exact ⟨h, by simp⟩
    · intro i d h
      have hb : best = some (i, d) := h
      refine ⟨hacc _ hb, by simp, ?_, Or.inl hb⟩
      intro p hp
      rw [hb] at hp
      obtain rfl : (i, d) = p := Option.some.inj hp
      exact le_refl _
  | cons m rest ih =>
    intro i0 best hacc
    simp only [findClosest]
    by_cases hcand : m.lane = laneIndex ∧ m.hit = false ∧ m.missed = false
    · rw [if_pos hcand]
      by_cases hupd : beatsBest (noteDist hitLineY m) best ∧ noteDist hitLineY m < window
      · rw [if_pos hupd]
        have hacc' : ∀ p : ℕ × ℚ, some (i0, noteDist hitLineY m) = some p → p.2 < window := by
          intro p hp
          obtain rfl : (i0, noteDist hitLineY m) = p := Option.some.inj hp
          exact hupd.2
        refine ⟨?_, ?_⟩
        · intro h
          obtain ⟨hnone, -⟩ := ((ih (i0 + 1) _ hacc').1) h
          exact absurd hnone (by simp)
        · intro i d h
          obtain ⟨hdw, hmin, hleb, horig⟩ := ((ih (i0 + 1) _ hacc').2) i d h
          have hdm : d ≤ noteDist hitLineY m := hleb _ rfl
          refine ⟨hdw, ?_, ?_, ?_⟩
          · intro n hn hc hnw
            rcases List.mem_cons.mp hn with rfl | hn'
            · exact hdm
            · exact hmin n hn' hc hnw
          · intro p hp
            subst hp
            exact le_trans hdm (le_of_lt hupd.1)
          · right
            rcases horig with heq | ⟨j, n, hjn, hij, hc, hd⟩
            · obtain ⟨rfl, rfl⟩ : i0 = i ∧ noteDist hitLineY m = d := by
                have := Option.some.inj heq
                exact ⟨congrArg Prod.fst this, congrArg Prod.snd this⟩
              exact ⟨0, m, by simp, by omega, hcand, rfl⟩
            · exact ⟨j + 1, n, by simpa using hjn, by omega, hc, hd⟩
      · rw [if_neg hupd]
        refine ⟨?_, ?_⟩
        · intro h
          obtain ⟨hnone, hrest⟩ := ((ih (i0 + 1) best hacc).1) h
          subst hnone
          refine ⟨rfl, ?_⟩
          intro n hn hc hnw
          rcases List.mem_cons.mp hn with rfl | hn'
          · exact hupd ⟨trivial, hnw⟩
          · exact hrest n hn' hc hnw
        · intro i d h
          obtain ⟨hdw, hmin, hleb, horig⟩ := ((ih (i0 + 1) best hacc).2) i d h
          refine ⟨hdw, ?_, hleb, ?_⟩
          · intro n hn hc hnw
            rcases List.mem_cons.mp hn with rfl | hn'
            · -- head fails the update test: either best already beats it or it is out of window
              rcases best with _ | q
              · exact absurd ⟨trivial, hnw⟩ hupd
              · by_cases hq : noteDist hitLineY n < q.2
                · exact absurd ⟨hq, hnw⟩ hupd
                · exact le_trans (hleb q rfl) (le_of_not_lt hq)
            · exact hmin n hn' hc hnw
          · rcases horig with heq | ⟨j, n, hjn, hij, hc, hd⟩
            · exact Or.inl heq
            · exact Or.inr ⟨j + 1, n, by simpa using hjn, by omega, hc, hd⟩
    · rw [if_neg hcand]
      refine ⟨?_, ?_⟩
      · intro h
        obtain ⟨hnone, hrest⟩ := ((ih (i0 + 1) best hacc).1) h
        subst hnone
        refine ⟨rfl, ?_⟩
        intro n hn hc hnw
        rcases List.mem_cons.mp hn with rfl | hn'
        · exact absurd hc hcand
        · exact hrest n hn' hc hnw
      · intro i d h
        obtain ⟨hdw, hmin, hleb, horig⟩ := ((ih (i0 + 1) best hacc).2) i d h
        refine ⟨hdw, ?_, hleb, ?_⟩
        · intro n hn hc hnw
          rcases List.mem_cons.mp hn with rfl | hn'
          · exact absurd hc hcand
          · exact hmin n hn' hc hnw
        · rcases horig with heq | ⟨j, n, hjn, hij, hc, hd⟩
          · exact Or.inl heq
          · exact Or.inr ⟨j + 1, n, by simpa using hjn, by omega, hc, hd⟩



/-- C1: on a lane press, if no unresolved note of the lane lies strictly
inside the effective window `150 * (1 + timingLevel * 0.1)` around the
hit line, the state is unchanged; otherwise the selected note is an
unresolved note of the lane at minimal distance among the in-window
candidates, it is marked hit and rated by
`d <= 40 -> Perfect (base 100)`, `d <= 80 -> Great (base 75)`, else
`Good (base 50)`; and in the concrete scenarios, with notes at distances
30 and 80 the distance-30 note is rated Perfect (scoring 100), and with
only the distance-80 note it is rated Great (scoring 75). -/
theorem C1_hit_judgement :
    (∀ (canvasHeight : ℚ) (upg : UpgradeLevels) (s : PlayState) (laneIndex : ℕ),
        (∀ n ∈ s.notes, isCandidate laneIndex n →
          ¬ noteDist (canvasHeight * (85 / 100)) n < 150 * (1 + (upg.timing : ℚ) * (1 / 10))) →
        tryHitNote DEFAULT_CONFIG canvasHeight upg s laneIndex = s) ∧
    (∀ (canvasHeight : ℚ) (upg : UpgradeLevels) (s : PlayState) (laneIndex i : ℕ) (d : ℚ),
        findClosest laneIndex (canvasHeight * (85 / 100))
            (150 * (1 + (upg.timing : ℚ) * (1 / 10))) s.notes 0 none = some (i, d) →
        ∃ n, s.notes[i]? = some n ∧ isCandidate laneIndex n ∧
          d = noteDist (canvasHeight * (85 / 100)) n ∧
          d < 150 * (1 + (upg.timing : ℚ) * (1 / 10)) ∧
          (∀ m ∈ s.notes, isCandidate laneIndex m →
            noteDist (canvasHeight * (85 / 100)) m < 150 * (1 + (upg.timing : ℚ) * (1 / 10)) →
            d ≤ noteDist (canvasHeight * (85 / 100)) m) ∧
          tryHitNote DEFAULT_CONFIG canvasHeight upg s laneIndex =
            hitNote DEFAULT_CONFIG upg s i d ∧
          (hitNote DEFAULT_CONFIG upg s i d).notes =
            s.notes.set i { n with hit := true, rating := some (ratingFor DEFAULT_CONFIG d) }) ∧
    (∀ d : ℚ,
        (ratingFor DEFAULT_CONFIG d = HitRating.perfect ↔ d ≤ 40) ∧
        (ratingFor DEFAULT_CONFIG d = HitRating.great ↔ 40 < d ∧ d ≤ 80) ∧
        (ratingFor DEFAULT_CONFIG d = HitRating.good ↔ 80 < d) ∧
        baseScoreFor HitRating.perfect = 100 ∧ baseScoreFor HitRating.great = 75 ∧
        baseScoreFor HitRating.good = 50) ∧
    ((tryHitNote DEFAULT_CONFIG 800 noUpgrades twoNoteState 0).notes =
        [{ noteAt 0 710 with hit := true, rating := some HitRating.perfect }, noteAt 0 760] ∧
      (tryHitNote DEFAULT_CONFIG 800 noUpgrades twoNoteState 0).score.perfectCount = 1 ∧
      (tryHitNote DEFAULT_CONFIG 800 noUpgrades twoNoteState 0).score.current = 100) ∧
    ((tryHitNote DEFAULT_CONFIG 800 noUpgrades oneNoteState 0).notes =
        [{ noteAt 0 760 with hit := true, rating := some HitRating.great }] ∧
      (tryHitNote DEFAULT_CONFIG 800 noUpgrades oneNoteState 0).score.greatCount = 1 ∧
      (tryHitNote DEFAULT_CONFIG 800 noUpgrades oneNoteState 0).score.current = 75) := by
  have hwin : ∀ upg : UpgradeLevels,
      DEFAULT_CONFIG.baseHitWindow * (1 + (upg.timing : ℚ) * upgradeEffect "timing") =
        150 * (1 + (upg.timing : ℚ) * (1 / 10)) := fun _ => rfl
  have hline : ∀ canvasHeight : ℚ,
      canvasHeight * DEFAULT_CONFIG.hitLineY = canvasHeight * (85 / 100) := fun _ => rfl
  refine ⟨?_, ?_, ?_, by decide, by decide⟩
  · intro H upg s lane hno
    simp only [tryHitNote]
    rw [hwin, hline]
    cases hfc : findClosest lane (H * (85 / 100))
        (150 * (1 + (upg.timing : ℚ) * (1 / 10))) s.notes 0 none with
    | none => rfl
    | some pd =>
      exfalso
      obtain ⟨hdw, hmin, hleb, horig⟩ :=
        ((findClosest_spec lane (H * (85 / 100)) (150 * (1 + (upg.timing : ℚ) * (1 / 10)))
          s.notes 0 none (fun p hp => by cases hp)).2) pd.1 pd.2 hfc
      rcases horig with heq | ⟨j, n, hjn, hij, hc, hd⟩
      · exact Option.noConfusion heq
      · exact hno n (by exact List.getElem?_mem hjn) hc (hd ▸ hdw)
  · intro H upg s lane i d hfc
    obtain ⟨hdw, hmin, hleb, horig⟩ :=
      ((findClosest_spec lane (H * (85 / 100)) (150 * (1 + (upg.timing : ℚ) * (1 / 10)))
        s.notes 0 none (fun p hp => by cases hp)).2) i d hfc
    rcases horig with heq | ⟨j, n, hjn, hij, hc, hd⟩
    · exact Option.noConfusion heq
    · have hi : i = j := by omega
      subst hi
      refine ⟨n, hjn, hc, hd, hdw, hmin, ?_, ?_⟩
      · simp only [tryHitNote]
        rw [hwin, hline, hfc]
      · simp only [hitNote]
        rw [hjn]
  · intro d
    have h40 : DEFAULT_CONFIG.perfectWindow = 40 := rfl
    have h80 : DEFAULT_CONFIG.greatWindow = 80 := rfl
    unfold ratingFor
    rw [h40, h80]
    rcases le_or_lt d 40 with h1 | h1
    · rw [if_pos h1]
      refine ⟨by simp [h1], ?_, ?_, rfl, rfl, rfl⟩
      · constructor
        · intro h
          exact HitRating.noConfusion h
        · rintro ⟨hgt, -⟩
          exact absurd h1 (not_le_of_lt hgt)
      · constructor
        · intro h
          exact HitRating.noConfusion h
        · intro hgt
          exact absurd h1 (not_le_of_lt (lt_trans (by norm_num) hgt))
    · rcases le_or_lt d 80 with h2 | h2
      · rw [if_neg (not_le_of_lt h1), if_pos h2]
        refine ⟨?_, by simp [h1, h2], ?_, rfl, rfl, rfl⟩
        · constructor
          · intro h
            exact HitRating.noConfusion h
          · intro hle
            exact absurd hle (not_le_of_lt h1)
        · constructor
          · intro h
            exact HitRating.noConfusion h
          · intro hgt
            exact absurd h2 (not_le_of_lt hgt)
      · rw [if_neg (not_le_of_lt h1), if_neg (not_le_of_lt h2)]
        refine ⟨?_, ?_, by simp [h2], rfl, rfl, rfl⟩
        · constructor
          · intro h
            exact HitRating.noConfusion h
          · intro hle
            exact absurd hle (not_le_of_lt (lt_trans (by norm_num) h2))
        · constructor
          · intro h
            exact HitRating.noConfusion h
          · rintro ⟨-, hle⟩
            exact absurd hle (not_le_of_lt h2)

theorem C1_hit_judgement_witness :
    (tryHitNote DEFAULT_CONFIG 800 noUpgrades (startLevelState 1) 0 = startLevelState 1) ∧
    (∃ n, twoNoteState.notes[0]? = some n ∧ isCandidate 0 n ∧
      (30 : ℚ) = noteDist (800 * (85 / 100)) n ∧
      (30 : ℚ) < 150 * (1 + (noUpgrades.timing : ℚ) * (1 / 10)) ∧
      (∀ m ∈ twoNoteState.notes, isCandidate 0 m →
        noteDist (800 * (85 / 100)) m < 150 * (1 + (noUpgrades.timing : ℚ) * (1 / 10)) →
        (30 : ℚ) ≤ noteDist (800 * (85 / 100)) m) ∧
      tryHitNote DEFAULT_CONFIG 800 noUpgrades twoNoteState 0 =
        hitNote DEFAULT_CONFIG noUpgrades twoNoteState 0 30 ∧
      (hitNote DEFAULT_CONFIG noUpgrades twoNoteState 0 30).notes =
        twoNoteState.notes.set 0 { n with hit := true, rating := some (ratingFor DEFAULT_CONFIG 30) }) :=
  ⟨C1_hit_judgement.1 800 noUpgrades (startLevelState 1) 0 (by simp [startLevelState]),
   C1_hit_judgement.2.1 800 noUpgrades twoNoteState 0 0 30 (by decide)⟩



theorem cleanupNotes_mem (canvasHeight : ℚ) (ns : List Note) (n : Note) :
    n ∈ cleanupNotes canvasHeight ns ↔ n ∈ ns ∧ n.y < canvasHeight + 50 := by
  unfold cleanupNotes
  simp [List.mem_filter]

theorem moveAndMiss_mem_resolved (shieldLevel : ℕ) (hitLineY gameTime speed : ℚ) :
    ∀ (ns : List Note) (rolls : List ℚ) (c : ComboState) (sc : ScoreState) (n : Note),
      (n.hit = true ∨ n.missed = true) → n ∈ ns →
      n ∈ (moveAndMiss shieldLevel hitLineY gameTime speed ns rolls c sc).notes := by
  intro ns
  induction ns with
  | nil =>
    intro rolls c sc n _ h
    simp at h
  | cons m rest ih =>
    intro rolls c sc n hres hmem
    rcases List.mem_cons.mp hmem with rfl | hmem'
    · have hcond : ¬ (n.hit = false ∧ n.missed = false) := by
        rcases hres with h | h <;> simp [h]
      simp only [moveAndMiss]
      rw [if_neg hcond]
      exact List.mem_cons_self _ _
    · simp only [moveAndMiss]
      split_ifs with h1 h2
      · exact List.mem_cons_of_mem _ (ih rolls.tail _ _ n hres hmem')
      · exact List.mem_cons_of_mem _ (ih rolls _ _ n hres hmem')
      · exact List.mem_cons_of_mem _ (ih rolls _ _ n hres hmem')

theorem notePhaseIter_mem_resolved (shieldLevel : ℕ) (canvasHeight hitLineY speed : ℚ)
    (times : ℕ → ℚ) :
    ∀ (k : ℕ) (ns : List Note) (n : Note),
      (n.hit = true ∨ n.missed = true) → n.y < canvasHeight + 50 → n ∈ ns →
      n ∈ notePhaseIter shieldLevel canvasHeight hitLineY speed times k ns := by
  intro k
  induction k with
  | zero =>
    intro ns n _ _ h
    exact h
  | succ k ih =>
    intro ns n hres hy hmem
    exact ih _ n hres hy
      ((cleanupNotes_mem _ _ _).mpr
        ⟨moveAndMiss_mem_resolved shieldLevel hitLineY (times k) speed ns [] _ _ n hres hmem, hy⟩)

/-- C7 amended: the per-tick garbage-collection filter removes exactly
the notes whose position is at or beyond `canvasHeight + 50`, regardless
of their hit/missed flags; but the tick repositions only unresolved
notes, so a hit or missed note keeps its place in the active set on every
tick, and hence stays in the active set after arbitrarily many ticks as
long as its frozen position is above the removal line — resolved notes
are not garbage-collected. -/
theorem C7_note_cleanup_amended :
    (∀ (canvasHeight : ℚ) (ns : List Note) (n : Note),
        n ∈ cleanupNotes canvasHeight ns ↔ n ∈ ns ∧ n.y < canvasHeight + 50) ∧
    (∀ (shieldLevel : ℕ) (hitLineY gameTime speed : ℚ) (ns : List Note) (rolls : List ℚ)
        (c : ComboState) (sc : ScoreState) (n : Note),
        (n.hit = true ∨ n.missed = true) → n ∈ ns →
        n ∈ (moveAndMiss shieldLevel hitLineY gameTime speed ns rolls c sc).notes) ∧
    (∀ (shieldLevel : ℕ) (canvasHeight hitLineY speed : ℚ) (times : ℕ → ℚ)
        (k : ℕ) (ns : List Note) (n : Note),
        (n.hit = true ∨ n.missed = true) → n.y < canvasHeight + 50 → n ∈ ns →
        n ∈ notePhaseIter shieldLevel canvasHeight hitLineY speed times k ns) :=
  ⟨cleanupNotes_mem,
   fun shieldLevel hitLineY gameTime speed ns rolls c sc n hres hmem =>
     moveAndMiss_mem_resolved shieldLevel hitLineY gameTime speed ns rolls c sc n hres hmem,
   fun shieldLevel canvasHeight hitLineY speed times k ns n hres hy hmem =>
     notePhaseIter_mem_resolved shieldLevel canvasHeight hitLineY speed times k ns n hres hy hmem⟩

theorem C7_note_cleanup_amended_witness :
    (frozenHitNote.hit = true ∨ frozenHitNote.missed = true) ∧
    frozenHitNote.y < 800 + 50 ∧
    frozenHitNote ∈ [frozenHitNote] ∧
    frozenHitNote ∈ (moveAndMiss 0 680 (3 : ℚ) 400 [frozenHitNote] []
      { current := 0, max := 0, multiplier := 1 } (startLevelState 1).score).notes ∧
    frozenHitNote ∈ notePhaseIter 0 800 680 400 (fun i => (i : ℚ)) 5 [frozenHitNote] :=
  ⟨Or.inl rfl, by norm_num [frozenHitNote], List.mem_cons_self _ _,
   C7_note_cleanup_amended.2.1 0 680 3 400 [frozenHitNote] [] _ _ frozenHitNote
     (Or.inl rfl) (List.mem_cons_self _ _),
   C7_note_cleanup_amended.2.2 0 800 680 400 (fun i => (i : ℚ)) 5 [frozenHitNote] frozenHitNote
     (Or.inl rfl) (by norm_num [frozenHitNote]) (List.mem_cons_self _ _)⟩

/-- C7 counterexample: the already-hit note frozen at `y = 600` on an
800px canvas (hit line 680, removal line 850) is never removed from the
active note set: after any number of gameplay ticks it is still there, so
a resolved note does remain in the active set indefinitely. -/
theorem C7_counterexample :
    ¬ ∃ k : ℕ, frozenHitNote ∉
        notePhaseIter 0 800 680 400 (fun i => (i : ℚ)) k [frozenHitNote] := by
  have hstep : ∀ t : ℚ, notePhaseNotes 0 800 680 t 400 [frozenHitNote] = [frozenHitNote] := by
    intro t
    simp [notePhaseNotes, moveAndMiss, cleanupNotes, frozenHitNote]
    norm_num
  have hall : ∀ (k : ℕ) (f : ℕ → ℚ),
      notePhaseIter 0 800 680 400 f k [frozenHitNote] = [frozenHitNote] := by
    intro k
    induction k with
    | zero => intro f; rfl
    | succ k ih =>
      intro f
      show notePhaseIter 0 800 680 400 f k (notePhaseNotes 0 800 680 (f k) 400 [frozenHitNote]) =
        [frozenHitNote]
      rw [hstep]
      exact ih f
  rintro ⟨k, hk⟩
  exact hk (by rw [hall k]; exact List.mem_cons_self _ _)



theorem missNote_missCount (shieldLevel : ℕ) (roll : ℚ) (n : Note) (c : ComboState)
    (sc : ScoreState) :
    (missNote shieldLevel roll n c sc).2.2.missCount = sc.missCount + 1 := by
  simp only [missNote]
  split_ifs <;> rfl

theorem moveAndMiss_missCount_le (shieldLevel : ℕ) (hitLineY gameTime speed : ℚ) :
    ∀ (ns : List Note) (rolls : List ℚ) (c : ComboState) (sc : ScoreState),
      sc.missCount ≤ (moveAndMiss shieldLevel hitLineY gameTime speed ns rolls c sc).score.missCount := by
  intro ns
  induction ns with
  | nil =>
    intro rolls c sc
    exact le_refl _
  | cons m rest ih =>
    intro rolls c sc
    simp only [moveAndMiss]
    split_ifs with h1 h2
    · refine le_trans ?_ (ih rolls.tail _ _)
      rw [missNote_missCount]
      exact Nat.le_succ _
    · exact ih rolls c sc
    · exact ih rolls c sc

theorem updateGameplay_missCount_le (cfg : GameConfig) (canvasHeight : ℚ) (upg : UpgradeLevels)
    (level : LevelConfig) (spawnFuel : ℕ) (dt : ℚ) (rolls : List ℚ) (s : PlayState) :
    s.score.missCount ≤ (updateGameplay cfg canvasHeight upg level spawnFuel dt rolls s).score.missCount := by
  simp only [updateGameplay]
  split_ifs with h
  · exact moveAndMiss_missCount_le _ _ _ _ _ _ _ _
  · exact moveAndMiss_missCount_le _ _ _ _ _ _ _ _

theorem tick_missCount_le (cfg : GameConfig) (canvasHeight : ℚ) (upg : UpgradeLevels)
    (level : LevelConfig) (spawnFuel : ℕ) (dt : ℚ) (rolls : List ℚ) (s : PlayState) :
    s.score.missCount ≤ (tick cfg canvasHeight upg level spawnFuel dt rolls s).score.missCount := by
  unfold tick
  split_ifs with h
  · exact updateGameplay_missCount_le cfg canvasHeight upg level spawnFuel dt rolls s
  · exact le_refl _

theorem iterTick_missCount_le (cfg : GameConfig) (canvasHeight : ℚ) (upg : UpgradeLevels)
    (level : LevelConfig) (spawnFuel : ℕ) (dt : ℚ) (rolls : List ℚ) :
    ∀ (k : ℕ) (s : PlayState),
      s.score.missCount ≤ (iterTick cfg canvasHeight upg level spawnFuel dt rolls k s).score.missCount := by
  intro k
  induction k with
  | zero => intro s; exact le_refl _
  | succ k ih =>
    intro s
    exact le_trans (tick_missCount_le cfg canvasHeight upg level spawnFuel dt rolls s) (ih _)

theorem tick_paused (cfg : GameConfig) (canvasHeight : ℚ) (upg : UpgradeLevels)
    (level : LevelConfig) (spawnFuel : ℕ) (dt : ℚ) (rolls : List ℚ) (s : PlayState) :
    (tick cfg canvasHeight upg level spawnFuel dt rolls s).paused = s.paused := by
  unfold tick
  simp only [updateGameplay]
  split_ifs <;> rfl

theorem tick_results_iff (cfg : GameConfig) (canvasHeight : ℚ) (upg : UpgradeLevels)
    (level : LevelConfig) (spawnFuel : ℕ) (dt : ℚ) (rolls : List ℚ) (s : PlayState)
    (hs : s.screen = Screen.playing) (hp : s.paused = false) :
    (tick cfg canvasHeight upg level spawnFuel dt rolls s).screen = Screen.results ↔
      10 ≤ (tick cfg canvasHeight upg level spawnFuel dt rolls s).score.missCount := by
  unfold tick
  rw [if_pos ⟨hs, hp⟩]
  simp only [updateGameplay]
  split_ifs with h
  · simpa using h
  · constructor
    · intro hres
      exact absurd (hs ▸ hres) (by simp)
    · intro hcount
      exact absurd hcount h

theorem tick_screen_playing_cases (cfg : GameConfig) (canvasHeight : ℚ) (upg : UpgradeLevels)
    (level : LevelConfig) (spawnFuel : ℕ) (dt : ℚ) (rolls : List ℚ) (s : PlayState)
    (hs : s.screen = Screen.playing) :
    (tick cfg canvasHeight upg level spawnFuel dt rolls s).screen = Screen.playing ∨
      (tick cfg canvasHeight upg level spawnFuel dt rolls s).screen = Screen.results := by
  unfold tick
  simp only [updateGameplay]
  split_ifs with h1 h2
  · right
    rfl
  · left
    exact hs
  · left
    exact hs

/-- C10: while on the playing screen (unpaused), one frame transitions to
the results screen exactly when the updated miss counter has reached 10;
with the counter below 10 the screen stays `playing` even when the game
time already exceeds the generated level duration, and it stays `playing`
after any number of frames as long as the accumulated misses remain below
10 — elapsed time never ends a level. -/
theorem C10_miss_threshold :
    (∀ (cfg : GameConfig) (canvasHeight : ℚ) (upg : UpgradeLevels) (level : LevelConfig)
        (spawnFuel : ℕ) (dt : ℚ) (rolls : List ℚ) (s : PlayState),
        s.screen = Screen.playing → s.paused = false →
        ((tick cfg canvasHeight upg level spawnFuel dt rolls s).screen = Screen.results ↔
          10 ≤ (tick cfg canvasHeight upg level spawnFuel dt rolls s).score.missCount)) ∧
    (∀ (cfg : GameConfig) (canvasHeight : ℚ) (upg : UpgradeLevels) (level : LevelConfig)
        (spawnFuel : ℕ) (dt : ℚ) (rolls : List ℚ) (s : PlayState),
        s.screen = Screen.playing → s.paused = false →
        (level.duration : ℚ) < s.gameTime →
        (tick cfg canvasHeight upg level spawnFuel dt rolls s).score.missCount < 10 →
        (tick cfg canvasHeight upg level spawnFuel dt rolls s).screen = Screen.playing) ∧
    (∀ (cfg : GameConfig) (canvasHeight : ℚ) (upg : UpgradeLevels) (level : LevelConfig)
        (spawnFuel : ℕ) (dt : ℚ) (rolls : List ℚ) (k : ℕ) (s : PlayState),
        s.screen = Screen.playing → s.paused = false →
        (iterTick cfg canvasHeight upg level spawnFuel dt rolls k s).score.missCount < 10 →
        (iterTick cfg canvasHeight upg level spawnFuel dt rolls k s).screen = Screen.playing) := by
  refine ⟨?_, ?_, ?_⟩
  · intro cfg H upg level fuel dt rolls s hs hp
    exact tick_results_iff cfg H upg level fuel dt rolls s hs hp
  · intro cfg H upg level fuel dt rolls s hs hp htime hcount
    rcases tick_screen_playing_cases cfg H upg level fuel dt rolls s hs with h | h
    · exact h
    · have h10 := (tick_results_iff cfg H upg level fuel dt rolls s hs hp).mp h
      omega
  · intro cfg H upg level fuel dt rolls k
    induction k with
    | zero =>
      intro s hs hp h
      exact hs
    | succ k ih =>
      intro s hs hp hcount
      have hcount' : (iterTick cfg H upg level fuel dt rolls k
          (tick cfg H upg level fuel dt rolls s)).score.missCount < 10 := hcount
      have htick_lt : (tick cfg H upg level fuel dt rolls s).score.missCount < 10 :=
        lt_of_le_of_lt (iterTick_missCount_le cfg H upg level fuel dt rolls k _) hcount'
      rcases tick_screen_playing_cases cfg H upg level fuel dt rolls s hs with hplay | hres
      · have hp' : (tick cfg H upg level fuel dt rolls s).paused = false := by
          rw [tick_paused]
          exact hp
        exact ih (tick cfg H upg level fuel dt rolls s) hplay hp' hcount'
      · have h10 := (tick_results_iff cfg H upg level fuel dt rolls s hs hp).mp hres
        omega

theorem C10_miss_threshold_witness :
    (startLevelState 1).screen = Screen.playing ∧
    (startLevelState 1).paused = false ∧
    ((tick DEFAULT_CONFIG 800 noUpgrades (generateLevel 1) 0 (1 / 60) []
        (startLevelState 1)).screen = Screen.results ↔
      10 ≤ (tick DEFAULT_CONFIG 800 noUpgrades (generateLevel 1) 0 (1 / 60) []
        (startLevelState 1)).score.missCount) ∧
    ((generateLevel 1).duration : ℚ) < ({ startLevelState 1 with gameTime := 100 } : PlayState).gameTime ∧
    (tick DEFAULT_CONFIG 800 noUpgrades (generateLevel 1) 0 (1 / 60) []
        { startLevelState 1 with gameTime := 100 }).score.missCount < 10 ∧
    (tick DEFAULT_CONFIG 800 noUpgrades (generateLevel 1) 0 (1 / 60) []
        { startLevelState 1 with gameTime := 100 }).screen = Screen.playing ∧
    (iterTick DEFAULT_CONFIG 800 noUpgrades (generateLevel 1) 0 (1 / 60) [] 3
        (startLevelState 1)).score.missCount < 10 ∧
    (iterTick DEFAULT_CONFIG 800 noUpgrades (generateLevel 1) 0 (1 / 60) [] 3
        (startLevelState 1)).screen = Screen.playing :=
  ⟨rfl, rfl,
   C10_miss_threshold.1 DEFAULT_CONFIG 800 noUpgrades (generateLevel 1) 0 (1 / 60) []
     (startLevelState 1) rfl rfl,
   by decide,
   by decide,
   C10_miss_threshold.2.1 DEFAULT_CONFIG 800 noUpgrades (generateLevel 1) 0 (1 / 60) []
     { startLevelState 1 with gameTime := 100 } rfl rfl (by decide) (by decide),
   by decide,
   C10_miss_threshold.2.2 DEFAULT_CONFIG 800 noUpgrades (generateLevel 1) 0 (1 / 60) [] 3
     (startLevelState 1) rfl rfl (by decide)⟩


end ComboSurge
